import Mathlib

/-!
# Verification of the savings-action computation pipeline

Shallow embedding of the SQL view pipelines of this repository
(`rds.py`, `rds_agent_setup.py`, `ebs1.py`, `ec2_ops_setup.py`) as
executable Lean functions over lists of typed rows, together with
theorems settling the frozen claims about the ranker/deduplicator,
the candidate generators, the economic floor and the size ladder.

Conventions used throughout the embedding:
* SQL `DOUBLE` columns are modelled as `ℚ` (exact rationals); nullable
  columns as `Option _`.
* SQL `LIKE '%pat%'` is substring containment (`containsSub`).
* `ROUND(x, 2)` is DuckDB rounding, half away from zero (`round2`).
* `ORDER BY` is insertion sort with the corresponding comparator; SQL
  leaves tie order unspecified, insertion sort is one deterministic
  refinement.
* `ROW_NUMBER() OVER (PARTITION BY k ORDER BY o) = 1` dedup is
  `dedupBy`: per key, keep one candidate that is maximal for `o`
  (again a deterministic refinement of the unspecified tie-break).
* Numeric-to-string casts inside human-readable `reason` strings are
  abstracted by `toString`; no claim depends on those strings.
-/

/-- Lower-case a string character by character (models SQL `LOWER` on the
ASCII identifiers appearing in this data). -/
def lowerStr (s : String) : String := String.mk (s.data.map Char.toLower)

/-- `containsSub hay pat` models `hay LIKE '%' || pat || '%'`:
`pat` occurs as a contiguous substring of `hay`. -/
def containsSub (hay pat : String) : Bool :=
  hay.data.tails.any (fun t => pat.data.isPrefixOf t)

/-- DuckDB `ROUND(x, 2)`: round to two decimals, ties away from zero. -/
def round2 (x : ℚ) : ℚ :=
  if 0 ≤ x then ((⌊x * 100 + 1/2⌋ : ℤ) : ℚ) / 100
  else -(((⌊(-x) * 100 + 1/2⌋ : ℤ) : ℚ) / 100)

/-- Gregorian leap-year rule (what `julianday` month arithmetic uses). -/
def isLeapYear (y : ℕ) : Bool := (y % 4 = 0 && y % 100 ≠ 0) || y % 400 = 0

/-- Number of days of month `m` of year `y`; models the
`julianday(date_trunc('month', d) + INTERVAL 1 MONTH) - julianday(date_trunc('month', d))`
computation of the SQL sources. -/
def daysInMonth (y m : ℕ) : ℕ :=
  if m = 2 then (if isLeapYear y then 29 else 28)
  else if m = 4 ∨ m = 6 ∨ m = 9 ∨ m = 11 then 30
  else 31

/-- Strict "comes first under `est DESC NULLS LAST`" on nullable savings. -/
def optSavGt : Option ℚ → Option ℚ → Bool
  | some x, some y => x > y
  | some _, none => true
  | none, _ => false

/-- Strict "comes first under `ORDER BY priority DESC, est DESC NULLS LAST`",
the window order used by the dedup `ROW_NUMBER`s. -/
def prioSavBetter (prio : α → ℕ) (sav : α → Option ℚ) (a b : α) : Bool :=
  prio b < prio a || (prio a = prio b && optSavGt (sav a) (sav b))

/-- One maximal element of a list under a strict comparator `better`
(the element `ROW_NUMBER() ... = 1` keeps in its partition). -/
def pickBest (better : α → α → Bool) : List α → Option α
  | [] => none
  | x :: xs => some (xs.foldl (fun acc y => if better y acc then y else acc) x)

/-- `ROW_NUMBER() OVER (PARTITION BY key ORDER BY better) = 1`:
keep, per key, one row maximal under `better`. -/
def dedupBy [DecidableEq κ] (better : α → α → Bool) (key : α → κ)
    (l : List α) : List α :=
  ((l.map key).dedup).filterMap
    (fun k => pickBest better (l.filter (fun x => key x = k)))

/-- `ORDER BY` as a sort on a boolean "may come before" comparator. -/
def sortByB (cmp : α → α → Bool) (l : List α) : List α :=
  List.insertionSort (fun a b => cmp a b = true) l

/-- Chain two `ORDER BY` keys. -/
def ordThen (o₁ o₂ : Ordering) : Ordering := o₁.then o₂

/-- Compare two rationals as an `Ordering` (ascending). -/
def ordQ (a b : ℚ) : Ordering := if a < b then .lt else if b < a then .gt else .eq

/-- `x DESC NULLS LAST` on a nullable numeric column. -/
def ordOptQDesc (a b : Option ℚ) : Ordering :=
  match a, b with
  | some x, some y => ordQ y x
  | some _, none => .lt
  | none, some _ => .gt
  | none, none => .eq

/-- Ascending order on nullable strings, nulls last. -/
def ordOptStr (a b : Option String) : Ordering :=
  match a, b with
  | some x, some y => if x < y then .lt else if y < x then .gt else .eq
  | some _, none => .lt
  | none, some _ => .gt
  | none, none => .eq

/-- Turn an `Ordering` chain into a "may come before" comparator. -/
def ordLe (o : Ordering) : Bool := o ≠ Ordering.gt

section DedupLemmas

variable {α : Type} {κ : Type} [DecidableEq κ]

theorem foldl_best_mem {b : α → α → Bool} :
    ∀ (ys : List α) (acc : α),
      ys.foldl (fun acc y => if b y acc then y else acc) acc = acc ∨
      ys.foldl (fun acc y => if b y acc then y else acc) acc ∈ ys := by
  intro ys
  induction ys with
  | nil => intro acc; left; rfl
  | cons y ys ih =>
    intro acc
    simp only [List.foldl_cons]
    by_cases hb : b y acc
    · simp only [hb, if_pos]
      rcases ih y with h | h
      · right; rw [h]; exact List.mem_cons_self _ _
      · right; exact List.mem_cons_of_mem _ h
    · simp only [hb, if_neg, Bool.false_eq_true, not_false_iff]
      rcases ih acc with h | h
      · left; exact h
      · right; exact List.mem_cons_of_mem _ h

theorem pickBest_mem {better : α → α → Bool} {l : List α} {x : α}
    (h : pickBest better l = some x) : x ∈ l := by
  cases l with
  | nil => simp [pickBest] at h
  | cons a as =>
    simp only [pickBest, Option.some.injEq] at h
    rcases foldl_best_mem (b := better) as a with h' | h'
    · rw [← h, h']; exact List.mem_cons_self _ _
    · rw [← h]; exact List.mem_cons_of_mem _ h'

theorem pickBest_isSome {b : α → α → Bool} {l : List α}
    (h : l ≠ []) : (pickBest b l).isSome := by
  cases l with
  | nil => exact absurd rfl h
  | cons a as => simp [pickBest]

theorem foldl_best_maximal {better : α → α → Bool}
    (hirr : ∀ a, better a a = false)
    (htp : ∀ a b c, better a b = true → better b c = true → better a c = true)
    (htn : ∀ a b c, better a b = false → better b c = false → better a c = false) :
    ∀ (ys : List α) (acc : α),
      better acc (ys.foldl (fun acc y => if better y acc then y else acc) acc) = false ∧
      ∀ y ∈ ys, better y (ys.foldl (fun acc y => if better y acc then y else acc) acc) = false := by
  intro ys
  induction ys with
  | nil =>
    intro acc
    exact ⟨hirr acc, by intro y hy; simp at hy⟩
  | cons y ys ih =>
    intro acc
    simp only [List.foldl_cons]
    by_cases hb : better y acc
    · simp only [hb, if_pos]
      obtain ⟨h1, h2⟩ := ih y
      refine ⟨?_, ?_⟩
      · -- acc was beaten by y, and y does not beat the result r
        by_contra hc
        simp only [Bool.not_eq_false] at hc
        have := htp y acc _ hb hc
        rw [this] at h1
        simp at h1
      · intro z hz
        rcases List.mem_cons.mp hz with rfl | hz'
        · exact h1
        · exact h2 z hz'
    · simp only [hb, if_neg, Bool.false_eq_true, not_false_iff]
      obtain ⟨h1, h2⟩ := ih acc
      have hyb : better y acc = false := by simpa using hb
      refine ⟨h1, ?_⟩
      intro z hz
      rcases List.mem_cons.mp hz with rfl | hz'
      · exact htn z acc _ hyb h1
      · exact h2 z hz'

theorem pickBest_maximal {better : α → α → Bool}
    (hirr : ∀ a, better a a = false)
    (htp : ∀ a b c, better a b = true → better b c = true → better a c = true)
    (htn : ∀ a b c, better a b = false → better b c = false → better a c = false)
    {l : List α} {x : α} (h : pickBest better l = some x) :
    ∀ y ∈ l, better y x = false := by
  cases l with
  | nil => simp [pickBest] at h
  | cons a as =>
    simp only [pickBest, Option.some.injEq] at h
    obtain ⟨h1, h2⟩ := foldl_best_maximal hirr htp htn as a
    intro z hz
    rcases List.mem_cons.mp hz with rfl | hz'
    · rw [← h]; exact h1
    · rw [← h]; exact h2 z hz'

theorem mem_of_mem_dedupBy {better : α → α → Bool} {key : α → κ} {l : List α} {x : α}
    (h : x ∈ dedupBy better key l) : x ∈ l := by
  simp only [dedupBy, List.mem_filterMap] at h
  obtain ⟨k, _, hpick⟩ := h
  exact (List.mem_filter.mp (pickBest_mem hpick)).1

theorem key_of_mem_dedupBy {better : α → α → Bool} {key : α → κ} {l : List α} {x : α} {k : κ}
    (hk : pickBest better (l.filter (fun y => key y = k)) = some x) : key x = k := by
  have := List.mem_filter.mp (pickBest_mem hk)
  exact of_decide_eq_true this.2

/-- The dedup step keeps at most one row per key. -/
theorem dedupBy_countP_le_one {better : α → α → Bool} {key : α → κ} (l : List α) (k₀ : κ) :
    (dedupBy better key l).countP (fun x => key x = k₀) ≤ 1 := by
  unfold dedupBy
  have hnd : ((l.map key).dedup).Nodup := List.nodup_dedup _
  -- generalize over the (nodup) key list
  revert hnd
  generalize (l.map key).dedup = ks
  intro hnd
  induction ks with
  | nil => simp
  | cons k ks ih =>
    have hndk := (List.nodup_cons.mp hnd)
    simp only [List.filterMap_cons]
    cases hpick : pickBest better (l.filter (fun x => key x = k)) with
    | none => exact ih hndk.2
    | some x =>
      have hx : key x = k := key_of_mem_dedupBy hpick
      have hzero : k ∉ ks → (ks.filterMap
          (fun k => pickBest better (l.filter (fun x => key x = k)))).countP
          (fun x => key x = k) = 0 := by
        intro hkn
        rw [List.countP_eq_zero]
        intro y hy
        simp only [List.mem_filterMap] at hy
        obtain ⟨k', hk', hpick'⟩ := hy
        have hy' : key y = k' := key_of_mem_dedupBy hpick'
        simp only [hy', decide_eq_true_eq]
        intro hcon
        exact hkn (hcon ▸ hk')
      by_cases hk : k = k₀
      · subst hk
        simp only [List.countP_cons]
        have hxd : (decide (key x = k)) = true := decide_eq_true hx
        rw [hxd, hzero hndk.1]
        simp
      · simp only [List.countP_cons]
        have hxd : (decide (key x = k₀)) = false := by
          apply decide_eq_false
          rw [hx]; exact hk
        rw [hxd]
        simpa using ih hndk.2

/-- Every key occurring in the input still occurs after dedup. -/
theorem dedupBy_covers {better : α → α → Bool} {key : α → κ} {l : List α} {c : α}
    (hc : c ∈ l) : ∃ x ∈ dedupBy better key l, key x = key c := by
  have hkmem : key c ∈ (l.map key).dedup := by
    rw [List.mem_dedup]; exact List.mem_map_of_mem key hc
  have hne : l.filter (fun y => key y = key c) ≠ [] := by
    intro hnil
    have : c ∈ l.filter (fun y => key y = key c) := by
      rw [List.mem_filter]; exact ⟨hc, by simp⟩
    rw [hnil] at this; simp at this
  obtain ⟨x, hx⟩ := Option.isSome_iff_exists.mp (pickBest_isSome (b := better) hne)
  refine ⟨x, ?_, key_of_mem_dedupBy hx⟩
  simp only [dedupBy, List.mem_filterMap]
  exact ⟨key c, hkmem, hx⟩

/-- The survivor of a key group is maximal under `better` within its group. -/
theorem dedupBy_maximal {better : α → α → Bool} {key : α → κ}
    (hirr : ∀ a, better a a = false)
    (htp : ∀ a b c, better a b = true → better b c = true → better a c = true)
    (htn : ∀ a b c, better a b = false → better b c = false → better a c = false)
    {l : List α} {x c : α}
    (hx : x ∈ dedupBy better key l) (hc : c ∈ l) (hkey : key c = key x) :
    better c x = false := by
  simp only [dedupBy, List.mem_filterMap] at hx
  obtain ⟨k, _, hpick⟩ := hx
  have hkx : key x = k := key_of_mem_dedupBy hpick
  have hcin : c ∈ l.filter (fun y => key y = k) := by
    rw [List.mem_filter]
    exact ⟨hc, by simp [hkey, hkx]⟩
  exact pickBest_maximal hirr htp htn hpick c hcin

end DedupLemmas

section PrioSavLemmas

theorem optSavGt_irrefl (a : Option ℚ) : optSavGt a a = false := by
  cases a <;> simp [optSavGt]

theorem optSavGt_trans {a b c : Option ℚ}
    (h₁ : optSavGt a b = true) (h₂ : optSavGt b c = true) : optSavGt a c = true := by
  cases a <;> cases b <;> cases c <;> simp_all [optSavGt]
  exact lt_trans h₂ h₁

theorem optSavGt_neg_trans {a b c : Option ℚ}
    (h₁ : optSavGt a b = false) (h₂ : optSavGt b c = false) : optSavGt a c = false := by
  cases a <;> cases b <;> cases c <;> simp_all [optSavGt]
  exact le_trans h₁ h₂

theorem prioSavBetter_irrefl (prio : α → ℕ) (sav : α → Option ℚ) (a : α) :
    prioSavBetter prio sav a a = false := by
  simp [prioSavBetter, optSavGt_irrefl]

theorem prioSavBetter_trans (prio : α → ℕ) (sav : α → Option ℚ) (a b c : α)
    (h₁ : prioSavBetter prio sav a b = true) (h₂ : prioSavBetter prio sav b c = true) :
    prioSavBetter prio sav a c = true := by
  simp only [prioSavBetter, Bool.or_eq_true, Bool.and_eq_true, decide_eq_true_eq] at *
  rcases h₁ with h₁ | ⟨h₁e, h₁g⟩ <;> rcases h₂ with h₂ | ⟨h₂e, h₂g⟩
  · left; omega
  · left; omega
  · left; omega
  · right; exact ⟨by omega, optSavGt_trans h₁g h₂g⟩

theorem prioSavBetter_neg_trans (prio : α → ℕ) (sav : α → Option ℚ) (a b c : α)
    (h₁ : prioSavBetter prio sav a b = false) (h₂ : prioSavBetter prio sav b c = false) :
    prioSavBetter prio sav a c = false := by
  simp only [prioSavBetter, Bool.or_eq_false_iff, Bool.and_eq_false_iff,
    decide_eq_false_iff_not, not_lt] at *
  obtain ⟨h₁p, h₁r⟩ := h₁
  obtain ⟨h₂p, h₂r⟩ := h₂
  refine ⟨by omega, ?_⟩
  by_cases hac : prio a = prio c
  · right
    have hab : prio a = prio b := by omega
    have hbc : prio b = prio c := by omega
    rcases h₁r with h | h
    · exact absurd hab (by simpa using h)
    · rcases h₂r with h' | h'
      · exact absurd hbc (by simpa using h')
      · exact optSavGt_neg_trans h h'
  · left; simpa using hac

theorem prioSavBetter_false_prio_le (prio : α → ℕ) (sav : α → Option ℚ) (a b : α)
    (h : prioSavBetter prio sav a b = false) : prio a ≤ prio b := by
  simp only [prioSavBetter, Bool.or_eq_false_iff, decide_eq_false_iff_not, not_lt] at h
  exact h.1

end PrioSavLemmas

/-! ## Size ladder machinery

`rds.py refresh_rds_sizes_from_usage` parses each observed class with the
regex `^((db\.[^.]+))\.(.+)$` (group 1 = family `db.xx`, group 3 = size),
maps the size token through the fixed `_SIZE_ORDER` vocabulary, and
assigns a pandas dense rank per family (number of distinct observed
order values that are `≤` the entry's own order value). -/

/-- One row of an `rds_sizes` / `ec2_sizes` table: `(family, size, size_rank)`. -/
structure SizeEntry where
  family : String
  size : String
  size_rank : ℕ
deriving DecidableEq

/-- The character class `[^.]`. -/
def notDot (c : Char) : Bool := c ≠ '.'

/-- Character-level model of the regex `^((db\.[^.]+))\.(.+)$`:
returns (group 1, group 3) = (family chars, size chars). -/
def dbClassSplitChars (cs : List Char) : Option (List Char × List Char) :=
  match cs with
  | c1 :: c2 :: c3 :: rest =>
    if c1 = 'd' ∧ c2 = 'b' ∧ c3 = '.' then
      -- group `[^.]+` is the maximal nonempty dot-free run after "db.",
      -- then the separator `\.`, then group `(.+)` is the nonempty rest
      let p := rest.takeWhile notDot
      let q := rest.dropWhile notDot
      if q.head? = some '.' ∧ p ≠ [] ∧ q.tail ≠ [] then
        some ('d' :: 'b' :: '.' :: p, q.tail)
      else none
    else none
  | _ => none

/-- `^((db\.[^.]+))\.(.+)$` on a string: `db.r5.xlarge ↦ (db.r5, xlarge)`. -/
def dbClassSplit (s : String) : Option (String × String) :=
  (dbClassSplitChars s.data).map (fun p => (String.mk p.1, String.mk p.2))

/-- `_SIZE_ORDER` of `rds.py` (20 entries, position = order). -/
def sizeOrderList : List String :=
  ["nano","micro","small","medium","large","xlarge",
   "2xlarge","3xlarge","4xlarge","6xlarge","8xlarge","9xlarge",
   "10xlarge","12xlarge","16xlarge","18xlarge","24xlarge","32xlarge","48xlarge","56xlarge"]

/-- `_SIZE_ORDER` of `rds_agent_setup.py` / `ec2_ops_setup.py`
(18 entries, value = order). -/
def sizeOrderListAgent : List String :=
  ["nano","micro","small","medium","large","xlarge",
   "2xlarge","3xlarge","4xlarge","6xlarge","8xlarge","9xlarge",
   "10xlarge","12xlarge","16xlarge","18xlarge","24xlarge","32xlarge"]

/-- Position (starting at `n`) of `s` in a token list. -/
def idxFrom (n : ℕ) : List String → String → Option ℕ
  | [], _ => none
  | t :: ts, s => if s = t then some n else idxFrom (n + 1) ts s

/-- `_SIZE_ORDER` lookup of `rds.py` (`{s : i for i, s in enumerate(_SIZE_ORDER, start=1)}`). -/
def sizeOrd (s : String) : Option ℕ := idxFrom 1 sizeOrderList s

/-- `_SIZE_ORDER.get` of the agent/EC2 sources. -/
def sizeOrdAgent (s : String) : Option ℕ := idxFrom 1 sizeOrderListAgent s

/-- Order values observed for one family in a parsed triple list. -/
def familyOrds (base : List (String × String × ℕ)) (f : String) : List ℕ :=
  base.filterMap (fun e => if e.1 = f then some e.2.2 else none)

/-- Pandas `rank(method="dense")` of value `o` inside the value list `s`:
the number of distinct values `≤ o`. -/
def denseRank (s : List ℕ) (o : ℕ) : ℕ := ((s.filter (fun x => x ≤ o)).dedup).length

/-- Assign the per-family dense rank to every parsed triple. -/
def denseRankEntries (base : List (String × String × ℕ)) : List SizeEntry :=
  base.map (fun e => ⟨e.1, e.2.1, denseRank (familyOrds base e.1) e.2.2⟩)

namespace RdsPy

/-- The deduplicated `(family, size, order)` triples of `_rds_classes_seen`
joined with the size vocabulary (`df.dropna` on unknown tokens). -/
def ladderBase (cls : List String) : List (String × String × ℕ) :=
  ((cls.filterMap dbClassSplit).dedup).filterMap
    (fun p => (sizeOrd p.2).map (fun o => (p.1, p.2, o)))

/-- `refresh_rds_sizes_from_usage` of `rds.py`: the `rds_sizes` table built
from the distinct observed classes. -/
def refresh_rds_sizes_from_usage (cls : List String) : List SizeEntry :=
  denseRankEntries (ladderBase cls)

/-- The `next smaller` lookup realized by the `next_rank`/`target` CTEs of
`create_rightsize_unpriced` (`rds.py`): the same-family entry at
`size_rank - 1`, guarded by `size_rank > 1`. -/
def next_smaller (sizes : List SizeEntry) (c : String) : Option String :=
  match dbClassSplit c with
  | none => none
  | some (f, s) =>
    match sizes.find? (fun e => e.family = f && e.size = s) with
    | none => none
    | some e =>
      if 1 < e.size_rank then
        (sizes.find? (fun e2 => e2.family = f && e2.size_rank = e.size_rank - 1)).map
          (fun e2 => f ++ "." ++ e2.size)
      else none

/-- The `next larger` lookup realized by the corresponding CTEs of
`rds_rightsize_next_larger` (`rds.py`): the same-family entry at
`size_rank + 1` (the join simply fails at the upper boundary). -/
def next_larger (sizes : List SizeEntry) (c : String) : Option String :=
  match dbClassSplit c with
  | none => none
  | some (f, s) =>
    match sizes.find? (fun e => e.family = f && e.size = s) with
    | none => none
    | some e =>
      (sizes.find? (fun e2 => e2.family = f && e2.size_rank = e.size_rank + 1)).map
        (fun e2 => f ++ "." ++ e2.size)

end RdsPy

/-! ## Size ladder lemmas (towards the round-trip claim C9) -/

section LadderLemmas

theorem idxFrom_ge : ∀ {l : List String} {n k : ℕ} {s : String},
    idxFrom n l s = some k → n ≤ k := by
  intro l
  induction l with
  | nil => intro n k s h; simp [idxFrom] at h
  | cons t ts ih =>
    intro n k s h
    simp only [idxFrom] at h
    by_cases hs : s = t
    · rw [if_pos hs] at h
      have := Option.some.inj h
      omega
    · rw [if_neg hs] at h
      have := ih h
      omega

theorem idxFrom_inj : ∀ {l : List String} {n k : ℕ} {s₁ s₂ : String},
    idxFrom n l s₁ = some k → idxFrom n l s₂ = some k → s₁ = s₂ := by
  intro l
  induction l with
  | nil => intro n k s₁ s₂ h; simp [idxFrom] at h
  | cons t ts ih =>
    intro n k s₁ s₂ h₁ h₂
    simp only [idxFrom] at h₁ h₂
    by_cases hs₁ : s₁ = t <;> by_cases hs₂ : s₂ = t
    · rw [hs₁, hs₂]
    · rw [if_pos hs₁] at h₁
      rw [if_neg hs₂] at h₂
      have h₁' := Option.some.inj h₁
      have := idxFrom_ge h₂
      omega
    · rw [if_pos hs₂] at h₂
      rw [if_neg hs₁] at h₁
      have h₂' := Option.some.inj h₂
      have := idxFrom_ge h₁
      omega
    · rw [if_neg hs₁] at h₁
      rw [if_neg hs₂] at h₂
      exact ih h₁ h₂

theorem idxFrom_mem : ∀ {l : List String} {n k : ℕ} {s : String},
    idxFrom n l s = some k → s ∈ l := by
  intro l
  induction l with
  | nil => intro n k s h; simp [idxFrom] at h
  | cons t ts ih =>
    intro n k s h
    simp only [idxFrom] at h
    by_cases hs : s = t
    · rw [hs]; exact List.mem_cons_self _ _
    · rw [if_neg hs] at h
      exact List.mem_cons_of_mem _ (ih h)

theorem sizeOrd_inj {s₁ s₂ : String} {k : ℕ}
    (h₁ : sizeOrd s₁ = some k) (h₂ : sizeOrd s₂ = some k) : s₁ = s₂ :=
  idxFrom_inj h₁ h₂

theorem sizeOrd_mem {s : String} {k : ℕ} (h : sizeOrd s = some k) :
    s ∈ sizeOrderList := idxFrom_mem h

/-- Every size vocabulary token is nonempty and dot-free. -/
theorem sizeOrderList_tokens :
    ∀ s ∈ sizeOrderList, s.data ≠ [] ∧ '.' ∉ s.data := by decide

theorem notDot_dot : notDot '.' = false := by simp [notDot]

theorem notDot_of_ne {c : Char} (h : c ≠ '.') : notDot c = true := by simp [notDot, h]

theorem ne_of_notDot {c : Char} (h : notDot c = true) : c ≠ '.' := by
  simpa [notDot] using h

/-- `takeWhile`/`dropWhile` of a list that is a dot-free block, a dot, and a rest. -/
theorem takeWhile_dotfree {p : List Char} (tok : List Char) (hp : ∀ ch ∈ p, ch ≠ '.') :
    (p ++ '.' :: tok).takeWhile notDot = p ∧
    (p ++ '.' :: tok).dropWhile notDot = '.' :: tok := by
  induction p with
  | nil =>
    constructor
    · rw [List.nil_append]
      simp [List.takeWhile_cons, notDot_dot]
    · rw [List.nil_append]
      simp [List.dropWhile_cons, notDot_dot]
  | cons a p ih =>
    have ha : a ≠ '.' := hp a (List.mem_cons_self _ _)
    have ih' := ih (fun ch hch => hp ch (List.mem_cons_of_mem _ hch))
    simp only [List.cons_append]
    constructor
    · simp [List.takeWhile_cons, notDot_of_ne ha, ih'.1]
    · simp [List.dropWhile_cons, notDot_of_ne ha, ih'.2]

/-- Structure of a successful regex parse: the family chars are
`db.` followed by a nonempty dot-free block, the size chars are nonempty,
and the input is family ++ `.` ++ size. -/
theorem dbClassSplitChars_spec {cs fp sp : List Char}
    (h : dbClassSplitChars cs = some (fp, sp)) :
    ∃ p, fp = 'd' :: 'b' :: '.' :: p ∧ p ≠ [] ∧ (∀ ch ∈ p, ch ≠ '.') ∧
      sp ≠ [] ∧ cs = fp ++ '.' :: sp := by
  match cs with
  | [] => simp [dbClassSplitChars] at h
  | [c1] => simp [dbClassSplitChars] at h
  | [c1, c2] => simp [dbClassSplitChars] at h
  | c1 :: c2 :: c3 :: rest =>
    simp only [dbClassSplitChars] at h
    by_cases hdb : c1 = 'd' ∧ c2 = 'b' ∧ c3 = '.'
    · rw [if_pos hdb] at h
      obtain ⟨h1, h2, h3⟩ := hdb
      subst h1; subst h2; subst h3
      by_cases hcond : (rest.dropWhile notDot).head? = some '.' ∧
          rest.takeWhile notDot ≠ [] ∧ (rest.dropWhile notDot).tail ≠ []
      · rw [if_pos hcond] at h
        obtain ⟨hsep, hpne, htne⟩ := hcond
        simp only [Option.some.injEq, Prod.mk.injEq] at h
        obtain ⟨hfp, hsp⟩ := h
        refine ⟨rest.takeWhile notDot, hfp.symm, hpne, ?_, ?_, ?_⟩
        · intro ch hch
          exact ne_of_notDot (List.mem_takeWhile_imp hch)
        · rw [← hsp]; exact htne
        · have hsplit : rest.takeWhile notDot ++ rest.dropWhile notDot = rest :=
            List.takeWhile_append_dropWhile _ _
          have hcons : rest.dropWhile notDot = '.' :: (rest.dropWhile notDot).tail := by
            cases hq : rest.dropWhile notDot with
            | nil => rw [hq] at hsep; simp at hsep
            | cons a t =>
              rw [hq] at hsep
              simp only [List.head?] at hsep
              have : a = '.' := Option.some.inj hsep
              rw [this]
              rfl
          rw [← hfp, ← hsp]
          simp only [List.cons_append]
          rw [← hcons, hsplit]
      · rw [if_neg hcond] at h; simp at h
    · rw [if_neg hdb] at h; simp at h

/-- Re-parsing a recombined `family ++ "." ++ token` class succeeds. -/
theorem dbClassSplitChars_recombine {p tok : List Char}
    (hpne : p ≠ []) (hpdot : ∀ ch ∈ p, ch ≠ '.') (htok : tok ≠ []) :
    dbClassSplitChars (('d' :: 'b' :: '.' :: p) ++ '.' :: tok) =
      some ('d' :: 'b' :: '.' :: p, tok) := by
  obtain ⟨htake, hdrop⟩ := takeWhile_dotfree tok hpdot
  simp [dbClassSplitChars, htake, hdrop, hpne, htok]

end LadderLemmas

/-! ### Dense-rank arithmetic on the set of observed order values -/

/-- Dense rank of `o` inside a finite set of order values. -/
def rankF (T : Finset ℕ) (o : ℕ) : ℕ := (T.filter (fun x => x ≤ o)).card

theorem denseRank_eq_rankF (s : List ℕ) (o : ℕ) :
    denseRank s o = rankF s.toFinset o := by
  unfold denseRank rankF
  have h1 : (s.filter (fun x => x ≤ o)).toFinset = s.toFinset.filter (fun x => x ≤ o) := by
    ext z
    simp [List.mem_toFinset, List.mem_filter]
  rw [← h1, ← List.card_toFinset]

theorem rankF_pos {T : Finset ℕ} {o : ℕ} (h : o ∈ T) : 1 ≤ rankF T o := by
  unfold rankF
  have hmem : o ∈ T.filter (fun x => x ≤ o) := Finset.mem_filter.mpr ⟨h, le_refl o⟩
  exact Finset.card_pos.mpr ⟨o, hmem⟩

theorem rankF_le_of_le {T : Finset ℕ} {o₁ o₂ : ℕ} (h : o₁ ≤ o₂) :
    rankF T o₁ ≤ rankF T o₂ := by
  apply Finset.card_le_card
  intro z hz
  rw [Finset.mem_filter] at hz ⊢
  exact ⟨hz.1, le_trans hz.2 h⟩

theorem rankF_lt_of_lt {T : Finset ℕ} {o₁ o₂ : ℕ} (h1 : o₂ ∈ T) (h : o₁ < o₂) :
    rankF T o₁ < rankF T o₂ := by
  apply Finset.card_lt_card
  rw [Finset.ssubset_iff_of_subset]
  · exact ⟨o₂, Finset.mem_filter.mpr ⟨h1, le_refl o₂⟩,
      fun hc => absurd (Finset.mem_filter.mp hc).2 (by omega)⟩
  · intro z hz
    rw [Finset.mem_filter] at hz ⊢
    exact ⟨hz.1, by omega⟩

theorem rankF_inj {T : Finset ℕ} {o₁ o₂ : ℕ} (h1 : o₁ ∈ T) (h2 : o₂ ∈ T)
    (h : rankF T o₁ = rankF T o₂) : o₁ = o₂ := by
  rcases lt_trichotomy o₁ o₂ with hlt | heq | hgt
  · have := rankF_lt_of_lt h2 hlt; omega
  · exact heq
  · have := rankF_lt_of_lt h1 hgt; omega

/-- If some member of `T` is larger than `o`, some member has rank exactly one more. -/
theorem rankF_succ_exists {T : Finset ℕ} {o x : ℕ} (_ho : o ∈ T) (hx : x ∈ T) (hox : o < x) :
    ∃ o₂ ∈ T, o < o₂ ∧ rankF T o₂ = rankF T o + 1 := by
  have hne : (T.filter (fun z => o < z)).Nonempty := ⟨x, Finset.mem_filter.mpr ⟨hx, hox⟩⟩
  set o₂ := (T.filter (fun z => o < z)).min' hne with ho₂
  have hmem : o₂ ∈ T.filter (fun z => o < z) := Finset.min'_mem _ hne
  rw [Finset.mem_filter] at hmem
  refine ⟨o₂, hmem.1, hmem.2, ?_⟩
  have hset : T.filter (fun z => z ≤ o₂) = insert o₂ (T.filter (fun z => z ≤ o)) := by
    ext z
    simp only [Finset.mem_filter, Finset.mem_insert]
    constructor
    · rintro ⟨hzT, hzle⟩
      by_cases hzo : z ≤ o
      · exact Or.inr ⟨hzT, hzo⟩
      · left
        have hzgt : o < z := by omega
        have : o₂ ≤ z := Finset.min'_le _ z (Finset.mem_filter.mpr ⟨hzT, hzgt⟩)
        omega
    · rintro (rfl | ⟨hzT, hzo⟩)
      · exact ⟨hmem.1, le_refl _⟩
      · exact ⟨hzT, by omega⟩
  have hnotmem : o₂ ∉ T.filter (fun z => z ≤ o) := by
    intro hc
    have := (Finset.mem_filter.mp hc).2
    omega
  unfold rankF
  rw [hset, Finset.card_insert_of_not_mem hnotmem]

/-- If some member of `T` is smaller than `o`, some member has rank exactly one less. -/
theorem rankF_pred_exists {T : Finset ℕ} {o x : ℕ} (ho : o ∈ T) (hx : x ∈ T) (hox : x < o) :
    ∃ o₂ ∈ T, o₂ < o ∧ rankF T o₂ + 1 = rankF T o := by
  have hne : (T.filter (fun w => w < o)).Nonempty := ⟨x, Finset.mem_filter.mpr ⟨hx, hox⟩⟩
  set o₂ := (T.filter (fun w => w < o)).max' hne with ho₂
  have hmem : o₂ ∈ T.filter (fun w => w < o) := Finset.max'_mem _ hne
  rw [Finset.mem_filter] at hmem
  refine ⟨o₂, hmem.1, hmem.2, ?_⟩
  have hset : T.filter (fun w => w ≤ o) = insert o (T.filter (fun w => w ≤ o₂)) := by
    ext z
    simp only [Finset.mem_filter, Finset.mem_insert]
    constructor
    · rintro ⟨hzT, hzle⟩
      by_cases hzo : z = o
      · exact Or.inl hzo
      · right
        have hzlt : z < o := by omega
        have hzmem : z ∈ T.filter (fun w => w < o) := Finset.mem_filter.mpr ⟨hzT, hzlt⟩
        have : z ≤ o₂ := Finset.le_max' _ z hzmem
        exact ⟨hzT, this⟩
    · rintro (rfl | ⟨hzT, hzo⟩)
      · exact ⟨ho, le_refl _⟩
      · exact ⟨hzT, by omega⟩
  have hnotmem : o ∉ T.filter (fun z => z ≤ o₂) := by
    intro hc
    have := (Finset.mem_filter.mp hc).2
    omega
  unfold rankF
  rw [hset, Finset.card_insert_of_not_mem hnotmem]

/-- A rank of at least two forces a strictly smaller member. -/
theorem exists_smaller_of_rankF_ge_two {T : Finset ℕ} {o : ℕ} (_ho : o ∈ T)
    (h : 2 ≤ rankF T o) : ∃ x ∈ T, x < o := by
  have h1 : 1 < (T.filter (fun x => x ≤ o)).card := h
  obtain ⟨a, ha, b, hb, hab⟩ := Finset.one_lt_card.mp h1
  rw [Finset.mem_filter] at ha hb
  by_cases hao : a = o
  · refine ⟨b, hb.1, ?_⟩
    have : b ≠ o := fun hc => hab (by rw [hao, hc])
    omega
  · exact ⟨a, ha.1, by omega⟩

/-! ### Entry-level facts about the built `rds_sizes` table -/

/-- `find?` lands on `x` when `x` matches and every match equals `x`. -/
theorem find?_eq_of_unique {α : Type} {p : α → Bool} {l : List α} {x : α}
    (hmem : x ∈ l) (hpx : p x = true) (huniq : ∀ y ∈ l, p y = true → y = x) :
    l.find? p = some x := by
  cases h : l.find? p with
  | none =>
    have := List.find?_eq_none.mp h x hmem
    rw [hpx] at this
    simp at this
  | some y =>
    have h1 := List.find?_some h
    have h2 := List.mem_of_find?_eq_some h
    rw [huniq y h2 h1]

theorem filterMap_ord_proj (ps : List (String × String)) :
    ((ps.filterMap (fun p => (sizeOrd p.2).map (fun o => (p.1, p.2, o)))).map
        (fun e => (e.1, e.2.1))) =
      ps.filter (fun p => (sizeOrd p.2).isSome) := by
  induction ps with
  | nil => rfl
  | cons p ps ih =>
    cases h : sizeOrd p.2 with
    | none => simp [List.filterMap_cons, h, List.filter_cons, ih]
    | some o => simp [List.filterMap_cons, h, List.filter_cons, ih]

namespace RdsPy

theorem ladderBase_pairs_nodup (cls : List String) :
    ((ladderBase cls).map (fun e => (e.1, e.2.1))).Nodup := by
  unfold ladderBase
  rw [filterMap_ord_proj]
  exact (List.nodup_dedup _).filter _

theorem mem_ladderBase_ord {cls : List String} {e : String × String × ℕ}
    (h : e ∈ ladderBase cls) : sizeOrd e.2.1 = some e.2.2 := by
  unfold ladderBase at h
  rw [List.mem_filterMap] at h
  obtain ⟨p, _, hp⟩ := h
  cases ho : sizeOrd p.2 with
  | none => rw [ho] at hp; simp at hp
  | some o =>
    rw [ho] at hp
    have hpe : (p.1, p.2, o) = e := by simpa using hp
    rw [← hpe]
    exact ho

theorem ladderBase_eq_of_pair_eq {cls : List String} {e₁ e₂ : String × String × ℕ}
    (h₁ : e₁ ∈ ladderBase cls) (h₂ : e₂ ∈ ladderBase cls)
    (hf : e₁.1 = e₂.1) (hs : e₁.2.1 = e₂.2.1) : e₁ = e₂ := by
  have hord₁ := mem_ladderBase_ord h₁
  have hord₂ := mem_ladderBase_ord h₂
  rw [hs] at hord₁
  have ho : e₁.2.2 = e₂.2.2 := by
    rw [hord₂] at hord₁
    exact (Option.some.inj hord₁).symm
  obtain ⟨f₁, s₁, o₁⟩ := e₁
  obtain ⟨f₂, s₂, o₂⟩ := e₂
  simp only at hf hs ho
  rw [hf, hs, ho]

theorem mem_ord_of_mem_ladderBase {cls : List String} {e : String × String × ℕ}
    (h : e ∈ ladderBase cls) : e.2.2 ∈ familyOrds (ladderBase cls) e.1 := by
  unfold familyOrds
  rw [List.mem_filterMap]
  exact ⟨e, h, by rw [if_pos rfl]⟩

/-- Every entry of the built table: its rank is the dense rank of its own
(sound) order value within its family. -/
theorem mem_sizes_spec {cls : List String} {en : SizeEntry}
    (h : en ∈ refresh_rds_sizes_from_usage cls) :
    ∃ e ∈ ladderBase cls, en = ⟨e.1, e.2.1, denseRank (familyOrds (ladderBase cls) e.1) e.2.2⟩ := by
  unfold refresh_rds_sizes_from_usage denseRankEntries at h
  rw [List.mem_map] at h
  obtain ⟨e, he, hrw⟩ := h
  exact ⟨e, he, hrw.symm⟩

/-- Conversely every `ladderBase` triple produces its table entry. -/
theorem sizes_of_mem_ladderBase {cls : List String} {e : String × String × ℕ}
    (h : e ∈ ladderBase cls) :
    (⟨e.1, e.2.1, denseRank (familyOrds (ladderBase cls) e.1) e.2.2⟩ : SizeEntry) ∈
      refresh_rds_sizes_from_usage cls := by
  unfold refresh_rds_sizes_from_usage denseRankEntries
  rw [List.mem_map]
  exact ⟨e, h, rfl⟩

/-- Two table entries of the same family and size coincide. -/
theorem sizes_unique_size {cls : List String} {e₁ e₂ : SizeEntry}
    (h₁ : e₁ ∈ refresh_rds_sizes_from_usage cls)
    (h₂ : e₂ ∈ refresh_rds_sizes_from_usage cls)
    (hf : e₁.family = e₂.family) (hs : e₁.size = e₂.size) : e₁ = e₂ := by
  obtain ⟨b₁, hb₁, rfl⟩ := mem_sizes_spec h₁
  obtain ⟨b₂, hb₂, rfl⟩ := mem_sizes_spec h₂
  simp only at hf hs
  have := ladderBase_eq_of_pair_eq hb₁ hb₂ hf hs
  rw [this]

/-- Two table entries of the same family and rank coincide. -/
theorem sizes_unique_rank {cls : List String} {e₁ e₂ : SizeEntry}
    (h₁ : e₁ ∈ refresh_rds_sizes_from_usage cls)
    (h₂ : e₂ ∈ refresh_rds_sizes_from_usage cls)
    (hf : e₁.family = e₂.family) (hr : e₁.size_rank = e₂.size_rank) : e₁ = e₂ := by
  obtain ⟨b₁, hb₁, rfl⟩ := mem_sizes_spec h₁
  obtain ⟨b₂, hb₂, rfl⟩ := mem_sizes_spec h₂
  simp only at hf hr
  have hmem₁ := mem_ord_of_mem_ladderBase hb₁
  have hmem₂ := mem_ord_of_mem_ladderBase hb₂
  rw [hf] at hmem₁
  rw [denseRank_eq_rankF, denseRank_eq_rankF, hf] at hr
  have hord : b₁.2.2 = b₂.2.2 :=
    rankF_inj (List.mem_toFinset.mpr hmem₁) (List.mem_toFinset.mpr hmem₂) hr
  have hso₁ := mem_ladderBase_ord hb₁
  have hso₂ := mem_ladderBase_ord hb₂
  rw [hord] at hso₁
  have hsize : b₁.2.1 = b₂.2.1 := sizeOrd_inj hso₁ hso₂
  have := ladderBase_eq_of_pair_eq hb₁ hb₂ hf hsize
  rw [this]

end RdsPy

/-! ### String-level parse facts and the C9 core lemmas -/

theorem string_eq_of_data {s₁ s₂ : String} (h : s₁.data = s₂.data) : s₁ = s₂ := by
  cases s₁; cases s₂; exact congrArg String.mk h

theorem append_dot_data (f s : String) :
    (f ++ "." ++ s).data = f.data ++ '.' :: s.data := by
  simp [String.data_append]

theorem dbClassSplit_spec {c f s : String} (h : dbClassSplit c = some (f, s)) :
    ∃ p, f.data = 'd' :: 'b' :: '.' :: p ∧ p ≠ [] ∧ (∀ ch ∈ p, ch ≠ '.') ∧
      s.data ≠ [] ∧ c.data = f.data ++ '.' :: s.data := by
  unfold dbClassSplit at h
  cases hcs : dbClassSplitChars c.data with
  | none => rw [hcs] at h; simp at h
  | some pq =>
    rw [hcs] at h
    obtain ⟨fp, sp⟩ := pq
    simp only [Option.map_some', Option.some.injEq, Prod.mk.injEq] at h
    obtain ⟨hf, hs⟩ := h
    obtain ⟨p, hfp, hpne, hpdot, hspne, hcsdata⟩ := dbClassSplitChars_spec hcs
    refine ⟨p, ?_, hpne, hpdot, ?_, ?_⟩
    · rw [← hf, hfp]
    · rw [← hs]; exact hspne
    · rw [← hf, ← hs]; exact hcsdata

theorem dbClassSplit_recombine {f s : String} {p : List Char}
    (hf : f.data = 'd' :: 'b' :: '.' :: p) (hpne : p ≠ [])
    (hpdot : ∀ ch ∈ p, ch ≠ '.') (hs : s.data ≠ []) :
    dbClassSplit (f ++ "." ++ s) = some (f, s) := by
  unfold dbClassSplit
  have hdata : (f ++ "." ++ s).data = ('d' :: 'b' :: '.' :: p) ++ '.' :: s.data := by
    rw [append_dot_data, hf]
  rw [hdata, dbClassSplitChars_recombine hpne hpdot hs]
  have h1 : String.mk ('d' :: 'b' :: '.' :: p) = f := string_eq_of_data (by rw [hf])
  have h2 : String.mk s.data = s := rfl
  rw [Option.map_some']
  rw [h1, h2]

namespace RdsPy

/-- Every table entry carries the dense rank of its own order value. -/
theorem entry_rank_spec {cls : List String} {en : SizeEntry}
    (h : en ∈ refresh_rds_sizes_from_usage cls) :
    ∃ o, sizeOrd en.size = some o ∧ o ∈ familyOrds (ladderBase cls) en.family ∧
      en.size_rank = rankF (familyOrds (ladderBase cls) en.family).toFinset o := by
  obtain ⟨b, hb, rfl⟩ := mem_sizes_spec h
  refine ⟨b.2.2, mem_ladderBase_ord hb, mem_ord_of_mem_ladderBase hb, ?_⟩
  simp only
  rw [denseRank_eq_rankF]

/-- Every observed order value of a family has a table entry at its dense rank. -/
theorem entry_of_ord {cls : List String} {f : String} {o : ℕ}
    (h : o ∈ familyOrds (ladderBase cls) f) :
    ∃ en ∈ refresh_rds_sizes_from_usage cls, en.family = f ∧
      en.size_rank = rankF (familyOrds (ladderBase cls) f).toFinset o := by
  unfold familyOrds at h
  rw [List.mem_filterMap] at h
  obtain ⟨b, hb, hbo⟩ := h
  by_cases hbf : b.1 = f
  · rw [if_pos hbf] at hbo
    have ho : b.2.2 = o := Option.some.inj hbo
    refine ⟨⟨b.1, b.2.1, denseRank (familyOrds (ladderBase cls) b.1) b.2.2⟩,
      sizes_of_mem_ladderBase hb, hbf, ?_⟩
    simp only
    rw [hbf, ho, denseRank_eq_rankF]
  · rw [if_neg hbf] at hbo; simp at hbo

/-- Decompose the `find?` predicate on `(family, size)`. -/
theorem find?_key_spec {sizes : List SizeEntry} {f s : String} {e : SizeEntry}
    (h : sizes.find? (fun en => en.family = f && en.size = s) = some e) :
    e ∈ sizes ∧ e.family = f ∧ e.size = s := by
  have h1 := List.find?_some h
  have h2 := List.mem_of_find?_eq_some h
  rw [Bool.and_eq_true, decide_eq_true_eq, decide_eq_true_eq] at h1
  exact ⟨h2, h1.1, h1.2⟩

/-- Decompose the `find?` predicate on `(family, rank)`. -/
theorem find?_rank_spec {sizes : List SizeEntry} {f : String} {r : ℕ} {e : SizeEntry}
    (h : sizes.find? (fun en => en.family = f && en.size_rank = r) = some e) :
    e ∈ sizes ∧ e.family = f ∧ e.size_rank = r := by
  have h1 := List.find?_some h
  have h2 := List.mem_of_find?_eq_some h
  rw [Bool.and_eq_true, decide_eq_true_eq, decide_eq_true_eq] at h1
  exact ⟨h2, h1.1, h1.2⟩

/-- Core of C9, round trip: whenever `next_larger` resolves on a ladder built
from usage, `next_smaller` of the result gives back the original class. -/
theorem round_trip_core {cls : List String} {c c' : String}
    (h : next_larger (refresh_rds_sizes_from_usage cls) c = some c') :
    next_smaller (refresh_rds_sizes_from_usage cls) c' = some c := by
  set L := refresh_rds_sizes_from_usage cls with hL
  cases hparse : dbClassSplit c with
  | none => simp [next_larger, hparse] at h
  | some fs =>
    obtain ⟨f, s⟩ := fs
    cases hfind : L.find? (fun e => e.family = f && e.size = s) with
    | none =>
      simp [next_larger, hparse, hfind] at h
    | some e =>
      cases hfind2 : L.find? (fun e2 => e2.family = f && e2.size_rank = e.size_rank + 1) with
      | none =>
        simp [next_larger, hparse, hfind, hfind2] at h
      | some e2 =>
        simp only [next_larger, hparse, hfind, hfind2,
          Option.map_some', Option.some.injEq] at h
        -- gathered facts
        obtain ⟨he_mem, he_f, he_s⟩ := find?_key_spec hfind
        obtain ⟨he2_mem, he2_f, he2_r⟩ := find?_rank_spec hfind2
        obtain ⟨p, hfp, hpne, hpdot, hsne, hcdata⟩ := dbClassSplit_spec hparse
        obtain ⟨o, hso, hoT, hrank⟩ := entry_rank_spec he_mem
        obtain ⟨o₂, hso₂, ho₂T, hrank₂⟩ := entry_rank_spec he2_mem
        -- the size token of e2 is a vocabulary token, hence nonempty
        have he2tok := sizeOrderList_tokens e2.size (sizeOrd_mem hso₂)
        -- parse of the recombined class c' = f ++ "." ++ e2.size
        have hparse' : dbClassSplit c' = some (f, e2.size) := by
          rw [← h]
          exact dbClassSplit_recombine hfp hpne hpdot he2tok.1
        -- find the e2 entry by (family, size)
        have hfind' : L.find? (fun en => en.family = f && en.size = e2.size) = some e2 := by
          apply find?_eq_of_unique he2_mem
          · rw [Bool.and_eq_true, decide_eq_true_eq, decide_eq_true_eq]
            exact ⟨he2_f, rfl⟩
          · intro y hy hpy
            rw [Bool.and_eq_true, decide_eq_true_eq, decide_eq_true_eq] at hpy
            exact sizes_unique_size hy he2_mem (by rw [hpy.1, he2_f]) (by rw [hpy.2])
        -- e has rank one below e2, and is the unique such entry
        have he_rank_pos : 1 ≤ e.size_rank := by
          rw [hrank]
          exact rankF_pos (List.mem_toFinset.mpr hoT)
        have hfind'' : L.find? (fun en => en.family = f && en.size_rank = e2.size_rank - 1) =
            some e := by
          apply find?_eq_of_unique he_mem
          · rw [Bool.and_eq_true, decide_eq_true_eq, decide_eq_true_eq]
            refine ⟨he_f, ?_⟩
            omega
          · intro y hy hpy
            rw [Bool.and_eq_true, decide_eq_true_eq, decide_eq_true_eq] at hpy
            apply sizes_unique_rank hy he_mem (by rw [hpy.1, he_f])
            rw [hpy.2]
            omega
        -- assemble
        simp only [next_smaller, hparse', hfind']
        rw [if_pos (by omega : 1 < e2.size_rank)]
        rw [hfind'']
        rw [Option.map_some']
        rw [he_s]
        congr 1
        apply string_eq_of_data
        rw [append_dot_data, ← hcdata]

end RdsPy

namespace RdsPy

/-- Core of C9, upper boundary: on a ladder built from usage, `next_larger`
returns `none` exactly when the class already has the maximal observed rank
of its family. -/
theorem next_larger_none_iff {cls : List String} {c f s : String} {e : SizeEntry}
    (hparse : dbClassSplit c = some (f, s))
    (hfind : (refresh_rds_sizes_from_usage cls).find?
      (fun en => en.family = f && en.size = s) = some e) :
    (next_larger (refresh_rds_sizes_from_usage cls) c = none ↔
      ∀ e2 ∈ refresh_rds_sizes_from_usage cls, e2.family = f →
        e2.size_rank ≤ e.size_rank) := by
  set L := refresh_rds_sizes_from_usage cls with hL
  obtain ⟨he_mem, he_f, _⟩ := find?_key_spec hfind
  obtain ⟨o, hso, hoT, hrank⟩ := entry_rank_spec he_mem
  constructor
  · intro hnone e2 he2_mem he2_f
    simp only [next_larger, hparse, hfind, Option.map_eq_none'] at hnone
    by_contra hgt
    push_neg at hgt
    obtain ⟨o₂, hso₂, ho₂T, hrank₂⟩ := entry_rank_spec he2_mem
    rw [he2_f] at ho₂T hrank₂
    rw [he_f] at hoT hrank
    -- e2 has strictly greater rank, so its order is strictly greater
    have hoo : o < o₂ := by
      by_contra hle
      push_neg at hle
      have := rankF_le_of_le (T := (familyOrds (ladderBase cls) f).toFinset) hle
      omega
    -- hence some order has rank exactly one above e
    obtain ⟨o₃, ho₃T, _, hr₃⟩ :=
      rankF_succ_exists (T := (familyOrds (ladderBase cls) f).toFinset)
        (List.mem_toFinset.mpr hoT) (List.mem_toFinset.mpr ho₂T) hoo
    obtain ⟨e₃, he₃_mem, he₃_f, he₃_r⟩ := entry_of_ord (List.mem_toFinset.mp ho₃T)
    have hp₃ : (decide (e₃.family = f) && decide (e₃.size_rank = e.size_rank + 1)) = true := by
      rw [Bool.and_eq_true, decide_eq_true_eq, decide_eq_true_eq]
      refine ⟨he₃_f, ?_⟩
      rw [he₃_r, hr₃, ← hrank]
    exact (List.find?_eq_none.mp hnone e₃ he₃_mem) hp₃
  · intro hmax
    simp only [next_larger, hparse, hfind, Option.map_eq_none']
    rw [List.find?_eq_none]
    intro y hy
    intro hpy
    rw [Bool.and_eq_true, decide_eq_true_eq, decide_eq_true_eq] at hpy
    have := hmax y hy hpy.1
    omega

/-- Core of C9, lower boundary: `next_smaller` returns `none` exactly when
the class already has the minimal observed rank of its family. -/
theorem next_smaller_none_iff {cls : List String} {c f s : String} {e : SizeEntry}
    (hparse : dbClassSplit c = some (f, s))
    (hfind : (refresh_rds_sizes_from_usage cls).find?
      (fun en => en.family = f && en.size = s) = some e) :
    (next_smaller (refresh_rds_sizes_from_usage cls) c = none ↔
      ∀ e2 ∈ refresh_rds_sizes_from_usage cls, e2.family = f →
        e.size_rank ≤ e2.size_rank) := by
  set L := refresh_rds_sizes_from_usage cls with hL
  obtain ⟨he_mem, he_f, _⟩ := find?_key_spec hfind
  obtain ⟨o, hso, hoT, hrank⟩ := entry_rank_spec he_mem
  rw [he_f] at hoT hrank
  constructor
  · intro hnone e2 he2_mem he2_f
    obtain ⟨o₂, hso₂, ho₂T, hrank₂⟩ := entry_rank_spec he2_mem
    rw [he2_f] at ho₂T hrank₂
    by_cases h1 : 1 < e.size_rank
    · -- the guard allowed a lookup, so the lookup itself must have failed
      simp only [next_smaller, hparse, hfind] at hnone
      rw [if_pos h1, Option.map_eq_none'] at hnone
      by_contra hlt
      push_neg at hlt
      have hoo : o₂ < o := by
        by_contra hle
        push_neg at hle
        have := rankF_le_of_le (T := (familyOrds (ladderBase cls) f).toFinset) hle
        omega
      obtain ⟨o₃, ho₃T, _, hr₃⟩ :=
        rankF_pred_exists (T := (familyOrds (ladderBase cls) f).toFinset)
          (List.mem_toFinset.mpr hoT) (List.mem_toFinset.mpr ho₂T) hoo
      obtain ⟨e₃, he₃_mem, he₃_f, he₃_r⟩ := entry_of_ord (List.mem_toFinset.mp ho₃T)
      have hp₃ : (decide (e₃.family = f) && decide (e₃.size_rank = e.size_rank - 1)) = true := by
        rw [Bool.and_eq_true, decide_eq_true_eq, decide_eq_true_eq]
        refine ⟨he₃_f, ?_⟩
        rw [he₃_r]
        omega
      exact (List.find?_eq_none.mp hnone e₃ he₃_mem) hp₃
    · -- rank 1: every entry of the family has rank at least 1
      have : 1 ≤ e2.size_rank := by
        rw [hrank₂]
        exact rankF_pos (List.mem_toFinset.mpr ho₂T)
      omega
  · intro hmin
    by_cases h1 : 1 < e.size_rank
    · -- a rank of at least 2 forces a smaller observed order: contradiction
      exfalso
      have h2 : 2 ≤ rankF (familyOrds (ladderBase cls) f).toFinset o := by omega
      obtain ⟨x, hxT, hxo⟩ :=
        exists_smaller_of_rankF_ge_two (List.mem_toFinset.mpr hoT) h2
      obtain ⟨e₂, he₂_mem, he₂_f, he₂_r⟩ := entry_of_ord (List.mem_toFinset.mp hxT)
      have := hmin e₂ he₂_mem he₂_f
      have hlt := rankF_lt_of_lt (T := (familyOrds (ladderBase cls) f).toFinset)
        (List.mem_toFinset.mpr hoT) hxo
      omega
    · simp only [next_smaller, hparse, hfind]
      rw [if_neg h1]

end RdsPy

/-! ## rds.py: normalized rows, env detection, candidate views, ranked actions -/

/-- Ascending order on naturals as an `Ordering`. -/
def ordN (a b : ℕ) : Ordering := if a < b then .lt else if b < a then .gt else .eq

namespace RdsPy

/-- One row of `rds_norm` (`create_rds_core_views`): typed casts of the raw
CSV columns, currency/percent strings already parsed, all nullable. -/
structure NormRow where
  account_id : Option String
  business_area : Option String
  db_id : Option String
  region : Option String
  current_class : Option String  -- LOWER(TRIM(instance_type))
  avg_cpu_14d : Option ℚ
  hours : Option ℚ
  cost_usd : Option ℚ
deriving DecidableEq

/-- One row of `rds_clean`. -/
structure CleanRow where
  account_id : Option String
  business_area : Option String
  db_id : Option String
  region : Option String
  current_class : String
  avg_cpu_14d : Option ℚ
  hours : ℚ
  cost_usd : ℚ
deriving DecidableEq

/-- `rds_clean`: keep rows with a class, null out CPU outside `[0,100]`,
coalesce hours and cost to 0. -/
def rds_clean (rows : List NormRow) : List CleanRow :=
  rows.filterMap fun r =>
    match r.current_class with
    | none => none
    | some cc =>
      if cc = "" then none
      else some
        { account_id := r.account_id, business_area := r.business_area,
          db_id := r.db_id, region := r.region, current_class := cc,
          avg_cpu_14d := match r.avg_cpu_14d with
            | some v => if 0 ≤ v ∧ v ≤ 100 then some v else none
            | none => none,
          hours := r.hours.getD 0,
          cost_usd := r.cost_usd.getD 0 }

/-- The default `rds_env_patterns` rows seeded by `ensure_env_tables`. -/
def rds_env_patterns : List String := ["dev", "test", "staging", "qa", "perf", "uat"]

/-- `LIKE '%'||pattern||'%'` against `name_l` or `ba_l` for any pattern. -/
def matchesAny (pats : List String) (name_l ba_l : String) : Bool :=
  pats.any (fun p => containsSub name_l p || containsSub ba_l p)

/-- One row of `rds_env_detect`. -/
structure EnvRow extends CleanRow where
  name_l : String
  ba_l : String
  env_guess : String
deriving DecidableEq

/-- `rds_env_detect`: drop rows matching an exclusion pattern, flag rows
matching a nonprod pattern (on lowercased id or business area). -/
def rds_env_detect (pats excl : List String) (rows : List CleanRow) : List EnvRow :=
  rows.filterMap fun r =>
    let name_l := lowerStr (r.db_id.getD "")
    let ba_l := lowerStr (r.business_area.getD "")
    if matchesAny excl name_l ba_l then none
    else some
      { toCleanRow := r, name_l := name_l, ba_l := ba_l,
        env_guess := if matchesAny pats name_l ba_l then "nonprod" else "prod" }

/-- One row of `rds_with_size`. -/
structure SizedRow extends EnvRow where
  family : Option String
  size_label : Option String
  size_rank : Option ℕ
deriving DecidableEq

/-- `rds_with_size` (`create_rds_with_size_view`): parse family and size from
the class, left join `rds_sizes` on `(family, LOWER(size_label))`. -/
def create_rds_with_size (sizes : List SizeEntry) (rows : List EnvRow) : List SizedRow :=
  rows.map fun r =>
    match dbClassSplit r.current_class with
    | none => { toEnvRow := r, family := none, size_label := none, size_rank := none }
    | some (f, s) =>
      { toEnvRow := r, family := some f, size_label := some s,
        size_rank := (sizes.find? (fun e => e.family = f && e.size = lowerStr s)).map
          (fun e => e.size_rank) }

/-- One row of `rds_kill_merge`. -/
structure KillRow where
  business_area : Option String
  region : Option String
  db_id : Option String
  current_class : String
  avg_cpu_14d : Option ℚ
  hours : ℚ
  cost_usd : ℚ
  est_monthly_savings_usd : ℚ
  confidence : String
  reason : String
deriving DecidableEq

/-- `rds_kill_merge`: CPU known and below 5 percent; savings are the full
current monthly cost. -/
def rds_kill_merge (rows : List SizedRow) : List KillRow :=
  sortByB (fun a b => ordLe (ordQ b.cost_usd a.cost_usd))
    (rows.filterMap fun r =>
      match r.avg_cpu_14d with
      | some cpu =>
        if cpu < 5 then
          some { business_area := r.business_area, region := r.region, db_id := r.db_id,
                 current_class := r.current_class, avg_cpu_14d := some cpu,
                 hours := r.hours, cost_usd := r.cost_usd,
                 est_monthly_savings_usd := r.cost_usd,
                 confidence := if cpu < 5 then "High" else "Medium",
                 reason := "CPU < 5%; retire or merge" }
        else none
      | none => none)

/-- One row of `rds_offhours_candidates` (`rds.py` flavor). -/
structure OffRow where
  business_area : Option String
  region : Option String
  db_id : Option String
  current_class : String
  env_guess : String
  current_hours : ℚ
  current_cost_usd : ℚ
  approx_247 : ℕ
  est_monthly_savings_usd : ℚ
  assumption : String
  avg_cpu_14d : Option ℚ
deriving DecidableEq

/-- `rds_offhours_candidates` of `rds.py`: nonprod and a fixed
`hours >= 672` gate (roughly 28 days of 24/7 use). -/
def rds_offhours_candidates (rows : List SizedRow) : List OffRow :=
  sortByB (fun a b => ordLe (ordQ b.est_monthly_savings_usd a.est_monthly_savings_usd))
    (rows.filterMap fun r =>
      if r.env_guess = "nonprod" ∧ r.hours ≥ 672 then
        some { business_area := r.business_area, region := r.region, db_id := r.db_id,
               current_class := r.current_class, env_guess := r.env_guess,
               current_hours := r.hours, current_cost_usd := r.cost_usd,
               approx_247 := if r.hours ≥ (672 : ℚ) then 1 else 0,
               est_monthly_savings_usd := round2 (r.cost_usd * 0.65),
               assumption := "Assume 5×12 schedule (~65% savings)",
               avg_cpu_14d := r.avg_cpu_14d }
      else none)

/-- One row of the unpriced rightsizing views of `rds.py`. -/
structure RsRow where
  business_area : Option String
  region : Option String
  db_id : Option String
  current_class : String
  current_size_label : String
  recommended_class : String
  avg_cpu_14d : Option ℚ
  hours : ℚ
  cost_usd : ℚ
deriving DecidableEq

/-- `rds_rightsize_next_smaller` of `rds.py`: CPU unknown or below 10
percent, a ranked size, rank above 1, and the same-family entry at the
next-smaller rank. -/
def rds_rightsize_next_smaller (sizes : List SizeEntry) (rows : List SizedRow) :
    List RsRow :=
  sortByB (fun a b => ordLe (ordQ b.cost_usd a.cost_usd))
    (rows.filterMap fun r =>
      if (match r.avg_cpu_14d with | none => true | some c => decide (c < 10)) then
        match r.size_rank, r.family, r.size_label with
        | some k, some f, some s =>
          if 1 < k then
            (sizes.find? (fun e => e.family = f && e.size_rank = k - 1)).map fun e =>
              { business_area := r.business_area, region := r.region, db_id := r.db_id,
                current_class := r.current_class,
                current_size_label := f ++ "." ++ s,
                recommended_class := f ++ "." ++ e.size,
                avg_cpu_14d := r.avg_cpu_14d, hours := r.hours, cost_usd := r.cost_usd }
          else none
        | _, _, _ => none
      else none)

/-- `rds_rightsize_next_larger` of `rds.py`: CPU at least 90, a ranked size,
and the same-family entry at the next-larger rank (none at the top). -/
def rds_rightsize_next_larger (sizes : List SizeEntry) (rows : List SizedRow) :
    List RsRow :=
  sortByB (fun a b =>
      ordLe (ordThen (ordOptQDesc a.avg_cpu_14d b.avg_cpu_14d)
        (ordQ b.cost_usd a.cost_usd)))
    (rows.filterMap fun r =>
      if (match r.avg_cpu_14d with | none => false | some c => decide (90 ≤ c)) then
        match r.size_rank, r.family, r.size_label with
        | some k, some f, some s =>
          (sizes.find? (fun e => e.family = f && e.size_rank = k + 1)).map fun e =>
            { business_area := r.business_area, region := r.region, db_id := r.db_id,
              current_class := r.current_class,
              current_size_label := f ++ "." ++ s,
              recommended_class := f ++ "." ++ e.size,
              avg_cpu_14d := r.avg_cpu_14d, hours := r.hours, cost_usd := r.cost_usd }
        | _, _, _ => none
      else none)

/-- One row of the `price_rds` table of `rds.py` (primary key
`(region, instance_class, purchase_option)`). -/
structure PriceRow where
  region : String
  instance_class : String
  purchase_option : String
  price_per_hour_usd : ℚ
deriving DecidableEq

/-- The `LEFT JOIN price_rds ... AND purchase_option='OnDemand'` lookup. -/
def priceLookup (prices : List PriceRow) (reg : Option String) (cls : String) : Option ℚ :=
  match reg with
  | none => none
  | some rg =>
    (prices.find? (fun p =>
        p.region = rg && p.instance_class = cls && p.purchase_option = "OnDemand")).map
      (fun p => p.price_per_hour_usd)

/-- One row of `rds_rightsize_next_smaller_priced` / `..._larger_priced`. -/
structure RsPricedRow extends RsRow where
  current_price_per_hr : Option ℚ
  rec_price_per_hr : Option ℚ
  est_monthly_savings_usd : Option ℚ
  reason : String
deriving DecidableEq

/-- `rds_rightsize_next_smaller_priced`: left-join both prices; savings are
`cost_usd - rec_price * hours`, null when the recommended price is unknown
or hours are zero (post-`rds_clean`, hours are never SQL NULL). -/
def rds_rightsize_next_smaller_priced (prices : List PriceRow) (rs : List RsRow) :
    List RsPricedRow :=
  sortByB (fun a b =>
      ordLe (ordThen (ordOptQDesc a.est_monthly_savings_usd b.est_monthly_savings_usd)
        (ordQ b.cost_usd a.cost_usd)))
    (rs.map fun r =>
      let pc := priceLookup prices r.region r.current_class
      let pn := priceLookup prices r.region r.recommended_class
      { toRsRow := r, current_price_per_hr := pc, rec_price_per_hr := pn,
        est_monthly_savings_usd :=
          match pn with
          | none => none
          | some pnv => if r.hours = 0 then none else some (r.cost_usd - pnv * r.hours),
        reason := "CPU 5–10% or unknown; next size down" })

/-- `rds_rightsize_next_larger_priced`: the delta `rec_price * hours - cost_usd`. -/
def rds_rightsize_next_larger_priced (prices : List PriceRow) (rs : List RsRow) :
    List RsPricedRow :=
  sortByB (fun a b =>
      ordLe (ordThen (ordOptQDesc a.est_monthly_savings_usd b.est_monthly_savings_usd)
        (ordOptQDesc a.avg_cpu_14d b.avg_cpu_14d)))
    (rs.map fun r =>
      let pc := priceLookup prices r.region r.current_class
      let pn := priceLookup prices r.region r.recommended_class
      { toRsRow := r, current_price_per_hr := pc, rec_price_per_hr := pn,
        est_monthly_savings_usd :=
          match pn with
          | none => none
          | some pnv => if r.hours = 0 then none else some (pnv * r.hours - r.cost_usd),
        reason := "CPU ≥ 90%; next size up" })

/-- One row of the `all_actions` CTE of `rds_actions_ranked` (`rds.py`). -/
structure ActionRow where
  action : String
  business_area : Option String
  region : Option String
  db_id : Option String
  current_class : String
  avg_cpu_14d : Option ℚ
  hours : ℚ
  cost_usd : ℚ
  est_delta_usd : Option ℚ
  reason : String
  confidence : String
  priority : ℕ
deriving DecidableEq

/-- `rds_actions_ranked` of `rds.py`: union the four candidate views with
priorities 3/2/1/0, apply the `COALESCE(est_delta_usd,0) >= 25` economic
floor, and order by priority, savings, cost. There is no dedup step. -/
def rds_actions_ranked (sizes : List SizeEntry) (prices : List PriceRow)
    (rows : List SizedRow) : List ActionRow :=
  let km := (rds_kill_merge rows).map fun r =>
    { action := "kill/merge", business_area := r.business_area, region := r.region,
      db_id := r.db_id, current_class := r.current_class, avg_cpu_14d := r.avg_cpu_14d,
      hours := r.hours, cost_usd := r.cost_usd,
      est_delta_usd := some r.est_monthly_savings_usd,
      reason := r.reason, confidence := r.confidence, priority := 3 }
  let ds := (rds_rightsize_next_smaller_priced prices
      (rds_rightsize_next_smaller sizes rows)).map fun r =>
    { action := "downsize", business_area := r.business_area, region := r.region,
      db_id := r.db_id, current_class := r.current_class, avg_cpu_14d := r.avg_cpu_14d,
      hours := r.hours, cost_usd := r.cost_usd,
      est_delta_usd := r.est_monthly_savings_usd, reason := r.reason,
      confidence := if r.current_price_per_hr ≠ none ∧ r.rec_price_per_hr ≠ none
        then "High" else "Medium",
      priority := 2 }
  let oh := (rds_offhours_candidates rows).map fun r =>
    { action := "offhours", business_area := r.business_area, region := r.region,
      db_id := r.db_id, current_class := r.current_class, avg_cpu_14d := r.avg_cpu_14d,
      hours := r.current_hours, cost_usd := r.current_cost_usd,
      est_delta_usd := some r.est_monthly_savings_usd, reason := r.assumption,
      confidence := if r.approx_247 = 1 then "High" else "Medium", priority := 1 }
  let us := (rds_rightsize_next_larger_priced prices
      (rds_rightsize_next_larger sizes rows)).map fun r =>
    { action := "upsize", business_area := r.business_area, region := r.region,
      db_id := r.db_id, current_class := r.current_class, avg_cpu_14d := r.avg_cpu_14d,
      hours := r.hours, cost_usd := r.cost_usd,
      est_delta_usd := r.est_monthly_savings_usd, reason := r.reason,
      confidence := if r.current_price_per_hr ≠ none ∧ r.rec_price_per_hr ≠ none
        then "High" else "Medium",
      priority := 0 }
  let all_actions := km ++ ds ++ oh ++ us
  let filtered := all_actions.filter (fun a => a.est_delta_usd.getD 0 ≥ 25)
  sortByB (fun a b =>
      ordLe (ordThen (ordN b.priority a.priority)
        (ordThen (ordOptQDesc a.est_delta_usd b.est_delta_usd)
          (ordQ b.cost_usd a.cost_usd))))
    filtered

/-- `build_rds` up to `rds_actions_ranked`: clean, env-detect, build the
ladder from the cleaned classes, attach sizes, rank actions. The price table
is the injected collaborator (seeded by the pricing API or observed ratios). -/
def build_rds_actions (pats excl : List String) (prices : List PriceRow)
    (raws : List NormRow) : List ActionRow :=
  let clean := rds_clean raws
  let env := rds_env_detect pats excl clean
  let sizes := refresh_rds_sizes_from_usage (clean.map (fun r => r.current_class))
  let sized := create_rds_with_size sizes env
  rds_actions_ranked sizes prices sized

end RdsPy

/-! ## rds_agent_setup.py: usage table, helper views, optimized ranked view -/

namespace RdsAgent

/-- One row of the `rds_usage` table. `billing_period` (a month-start DATE)
is modelled as (year, month); `julianday` month-length arithmetic becomes
`daysInMonth`. -/
structure UsageRow where
  billing_year : ℕ
  billing_month : ℕ
  account_id : Option String
  account_name : Option String
  BA : Option String
  db_id : Option String
  region : Option String
  instance_class : Option String
  hours : Option ℚ
  cost_usd : Option ℚ
  avg_cpu_14d : Option ℚ
  consistent_days : Option ℤ
deriving DecidableEq

/-- One row of the agent `price_rds` table. -/
structure PriceRowA where
  instance_class : String
  region : String
  deployment : Option String
  engine : Option String
  hourly_usd : ℚ
  price_date : Option String
deriving DecidableEq

/-- `JOIN price_rds ON instance_class AND region`. -/
def priceFind (prices : List PriceRowA) (cls reg : String) : Option PriceRowA :=
  prices.find? (fun p => p.instance_class = cls && p.region = reg)

/-- `re.match(r"^(db\.[^.]+)\.(.+)$", ic)` with `_SIZE_ORDER.get(size.lower())`
and pandas dense rank per family: the triples of `refresh_rds_sizes_from_usage`. -/
def ladderBase (cls : List String) : List (String × String × ℕ) :=
  ((cls.dedup.filterMap dbClassSplit).filterMap
    (fun p => (sizeOrdAgent (lowerStr p.2)).map (fun o => (p.1, p.2, o)))).dedup

/-- `refresh_rds_sizes_from_usage` of `rds_agent_setup.py`. -/
def refresh_rds_sizes_from_usage (cls : List String) : List SizeEntry :=
  denseRankEntries (ladderBase cls)

/-- The view regex `regexp_extract(instance_class,'^(db\.[^\.]+)',1)`. -/
def asFamily (ic : String) : Option String :=
  match ic.data with
  | 'd' :: 'b' :: '.' :: rest =>
    let p := rest.takeWhile notDot
    if p = [] then none else some (String.mk ('d' :: 'b' :: '.' :: p))
  | _ => none

/-- The view regex `regexp_extract(instance_class,'\.([^.]+)$',1)`:
the nonempty dot-free suffix after the last dot. -/
def asSize (ic : String) : Option String :=
  let rev := ic.data.reverse
  let r := rev.takeWhile notDot
  match rev.dropWhile notDot with
  | '.' :: _ => if r = [] then none else some (String.mk r.reverse)
  | _ => none

/-- `LOWER(COALESCE(account_name,''))`. -/
def acct_l (u : UsageRow) : String := lowerStr (u.account_name.getD "")

/-- `LOWER(COALESCE(db_id,''))`. -/
def name_l (u : UsageRow) : String := lowerStr (u.db_id.getD "")

/-- `CASE WHEN hours >= 0.98 * (days_in_month * 24) THEN 1 ELSE 0 END`. -/
def approx_247 (u : UsageRow) : ℕ :=
  match u.hours with
  | some h =>
    if h ≥ 0.98 * ((daysInMonth u.billing_year u.billing_month : ℚ) * 24) then 1 else 0
  | none => 0

/-- The nonprod name test of the offhours CTEs (`dev`/`test`/`staging` only). -/
def nonprodName (u : UsageRow) : Bool :=
  containsSub (acct_l u) "dev" || containsSub (acct_l u) "test" ||
  containsSub (acct_l u) "staging" ||
  containsSub (name_l u) "dev" || containsSub (name_l u) "test" ||
  containsSub (name_l u) "staging"

/-- The `not_excluded` CTE: drop rows whose lowered account or id contains a
lowered exclusion pattern. -/
def not_excluded (excl : List String) (usage : List UsageRow) : List UsageRow :=
  usage.filter (fun u =>
    !(excl.any (fun p =>
      containsSub (acct_l u) (lowerStr p) || containsSub (name_l u) (lowerStr p))))

/-- One row of the agent `rds_rightsize_next_smaller` view. -/
structure RsRowA where
  billing_year : ℕ
  billing_month : ℕ
  account_id : Option String
  account_name : Option String
  BA : Option String
  db_id : Option String
  region : Option String
  current_class : String
  recommended_class : String
  hours : Option ℚ
  current_cost_usd : Option ℚ
  current_hourly : ℚ
  target_hourly : ℚ
  price_date : Option String
  est_monthly_savings_usd : Option ℚ
  avg_cpu_14d : ℚ
deriving DecidableEq

/-- `rds_rightsize_next_smaller` of `rds_agent_setup.py`: CPU known and
below 10, parsed family and size, ranked with a smaller size available, and
inner joins on both the current and the target price (an unpriced candidate
yields no row at all). Savings are `ROUND(hours * (current - target), 2)`. -/
def rds_rightsize_next_smaller (sizes : List SizeEntry) (prices : List PriceRowA)
    (usage : List UsageRow) : List RsRowA :=
  sortByB (fun a b => ordLe (ordOptQDesc a.est_monthly_savings_usd b.est_monthly_savings_usd))
    (usage.filterMap fun u =>
      match u.instance_class, u.avg_cpu_14d with
      | some ic, some cpu =>
        if cpu < 10 then
          match asFamily ic, asSize ic with
          | some f, some s =>
            match sizes.find? (fun e => e.family = f && e.size = s) with
            | some e =>
              if 1 < e.size_rank then
                match sizes.find? (fun e2 => e2.family = f && e2.size_rank = e.size_rank - 1) with
                | some e2 =>
                  match u.region with
                  | some reg =>
                    match priceFind prices ic reg,
                        priceFind prices (f ++ "." ++ e2.size) reg with
                    | some prc, some prt =>
                      some { billing_year := u.billing_year,
                             billing_month := u.billing_month,
                             account_id := u.account_id, account_name := u.account_name,
                             BA := u.BA, db_id := u.db_id, region := u.region,
                             current_class := ic,
                             recommended_class := f ++ "." ++ e2.size,
                             hours := u.hours, current_cost_usd := u.cost_usd,
                             current_hourly := prc.hourly_usd,
                             target_hourly := prt.hourly_usd,
                             price_date := match prc.price_date with
                               | some d => some d
                               | none => prt.price_date,
                             est_monthly_savings_usd := u.hours.map
                               (fun h => round2 (h * (prc.hourly_usd - prt.hourly_usd))),
                             avg_cpu_14d := cpu }
                    | _, _ => none
                  | none => none
                | none => none
              else none
            | none => none
          | _, _ => none
        else none
      | _, _ => none)

/-- One row of the agent `rds_offhours_candidates` view. -/
structure OffRowA where
  billing_year : ℕ
  billing_month : ℕ
  account_id : Option String
  account_name : Option String
  BA : Option String
  db_id : Option String
  region : Option String
  instance_class : Option String
  current_hours : ℚ
  current_cost_usd : Option ℚ
  approx_247 : ℕ
  est_monthly_savings_usd : Option ℚ
  assumption : String
  avg_cpu_14d : Option ℚ
deriving DecidableEq

/-- `rds_offhours_candidates` of `rds_agent_setup.py`: every non-production
(dev/test/staging named) usage row with non-null hours yields a candidate;
the 98-percent-of-month test only sets the `approx_247` flag. -/
def rds_offhours_candidates (usage : List UsageRow) : List OffRowA :=
  sortByB (fun a b => ordLe (ordOptQDesc a.est_monthly_savings_usd b.est_monthly_savings_usd))
    (usage.filterMap fun u =>
      if nonprodName u then
        match u.hours with
        | some h =>
          some { billing_year := u.billing_year, billing_month := u.billing_month,
                 account_id := u.account_id, account_name := u.account_name,
                 BA := u.BA, db_id := u.db_id, region := u.region,
                 instance_class := u.instance_class,
                 current_hours := h, current_cost_usd := u.cost_usd,
                 approx_247 := approx_247 u,
                 est_monthly_savings_usd := u.cost_usd.map (fun c => round2 (c * 0.65)),
                 assumption := "Assume 5x12 schedule (~65% savings)",
                 avg_cpu_14d := u.avg_cpu_14d }
        | none => none
      else none)

/-- One row of the `all_actions` CTE of the agent `rds_actions_ranked`. -/
structure ARow where
  action : String
  service : String
  resource_id : Option String
  account_name : Option String
  BA : Option String
  region : Option String
  current_config : Option String
  current_cost_usd : Option ℚ
  est_monthly_savings_usd : Option ℚ
  reason : Option String
  assumptions : Option String
  confidence : String
  priority : ℕ
  billing_year : ℕ
  billing_month : ℕ
deriving DecidableEq

/-- The `kill_merge` CTE: CPU known and below 5 over `not_excluded`. -/
def kill_merge (excl : List String) (usage : List UsageRow) : List ARow :=
  (not_excluded excl usage).filterMap fun u =>
    match u.avg_cpu_14d with
    | some cpu =>
      if cpu < 5 then
        some { action := "kill/merge", service := "rds", resource_id := u.db_id,
               account_name := u.account_name, BA := u.BA, region := u.region,
               current_config := u.instance_class,
               current_cost_usd := u.cost_usd,
               est_monthly_savings_usd := u.cost_usd.map round2,
               reason := u.hours.map (fun h =>
                 "CPU<5%, 24x7=" ++ toString (approx_247 u) ++ ", hours=" ++ toString h),
               assumptions := some "Assumes decommission; savings ≈ current monthly cost",
               confidence := if cpu < 5 then "High" else "Medium",
               priority := 3,
               billing_year := u.billing_year, billing_month := u.billing_month }
      else none
    | none => none

/-- The `downsize` CTE: the rightsize view restricted to CPU in `[5,10)`.
Both hourly prices are present by construction (inner joins), so the
confidence CASE always answers High. -/
def downsize (sizes : List SizeEntry) (prices : List PriceRowA)
    (usage : List UsageRow) : List ARow :=
  (rds_rightsize_next_smaller sizes prices usage).filterMap fun r =>
    if 5 ≤ r.avg_cpu_14d ∧ r.avg_cpu_14d < 10 then
      some { action := "downsize", service := "rds", resource_id := r.db_id,
             account_name := r.account_name, BA := r.BA, region := r.region,
             current_config := some r.current_class,
             current_cost_usd := r.current_cost_usd,
             est_monthly_savings_usd := r.est_monthly_savings_usd,
             reason := some ("CPU5–10%, next size down; avg_cpu_14d=" ++
               toString r.avg_cpu_14d),
             assumptions := some ("On-demand price delta × hours; price_date=" ++
               (match r.price_date with | some d => d | none => "unknown")),
             confidence := "High",
             priority := 2,
             billing_year := r.billing_year, billing_month := r.billing_month }
    else none

/-- The `offhours` CTE: non-production rows of `not_excluded` running
approximately 24x7. -/
def offhours (excl : List String) (usage : List UsageRow) : List ARow :=
  (not_excluded excl usage).filterMap fun u =>
    if nonprodName u ∧ approx_247 u = 1 then
      match u.hours with
      | some h =>
        some { action := "offhours", service := "rds", resource_id := u.db_id,
               account_name := u.account_name, BA := u.BA, region := u.region,
               current_config := u.instance_class,
               current_cost_usd := u.cost_usd,
               est_monthly_savings_usd := u.cost_usd.map (fun c => round2 (c * 0.65)),
               reason := some ("Non-prod & 24x7; hours=" ++ toString h),
               assumptions := some "Assume 5x12 schedule (~65% savings)",
               confidence := if approx_247 u = 1 then "High" else "Medium",
               priority := 1,
               billing_year := u.billing_year, billing_month := u.billing_month }
      | none => none
    else none

/-- The `all_actions` CTE. -/
def all_actions (excl : List String) (sizes : List SizeEntry) (prices : List PriceRowA)
    (usage : List UsageRow) : List ARow :=
  kill_merge excl usage ++ downsize sizes prices usage ++ offhours excl usage

/-- The `filtered` CTE: the `COALESCE(est_monthly_savings_usd, 0) >= 25`
economic floor, applied BEFORE dedup. -/
def filtered (excl : List String) (sizes : List SizeEntry) (prices : List PriceRowA)
    (usage : List UsageRow) : List ARow :=
  (all_actions excl sizes prices usage).filter
    (fun a => a.est_monthly_savings_usd.getD 0 ≥ 25)

/-- The dedup key `(billing_period, resource_id)`. -/
def dkey (a : ARow) : ℕ × ℕ × Option String := (a.billing_year, a.billing_month, a.resource_id)

/-- The `deduped` CTE: `ROW_NUMBER() OVER (PARTITION BY billing_period,
resource_id ORDER BY priority DESC, est_monthly_savings_usd DESC NULLS LAST)
... WHERE rn = 1`. -/
def deduped (excl : List String) (sizes : List SizeEntry) (prices : List PriceRowA)
    (usage : List UsageRow) : List ARow :=
  dedupBy (prioSavBetter (fun a => a.priority) (fun a => a.est_monthly_savings_usd)) dkey
    (filtered excl sizes prices usage)

/-- One row of the final agent `rds_actions_ranked` view. -/
structure RankedRow where
  action : String
  service : String
  resource_id : Option String
  account_name : Option String
  BA : Option String
  region : Option String
  current_config : Option String
  current_cost_usd : Option ℚ
  est_monthly_savings_usd : Option ℚ
  reason : Option String
  assumptions : Option String
  confidence : String
deriving DecidableEq

/-- The final projection of the ranked view. -/
def project (a : ARow) : RankedRow :=
  { action := a.action, service := a.service, resource_id := a.resource_id,
    account_name := a.account_name, BA := a.BA, region := a.region,
    current_config := a.current_config, current_cost_usd := a.current_cost_usd,
    est_monthly_savings_usd := a.est_monthly_savings_usd,
    reason := a.reason, assumptions := a.assumptions, confidence := a.confidence }

/-- `rds_actions_ranked` of `rds_agent_setup.py`: floor filter, then dedup,
then the presentation order (savings DESC NULLS LAST, cost DESC). -/
def rds_actions_ranked (excl : List String) (sizes : List SizeEntry)
    (prices : List PriceRowA) (usage : List UsageRow) : List RankedRow :=
  sortByB (fun a b =>
      ordLe (ordThen (ordOptQDesc a.est_monthly_savings_usd b.est_monthly_savings_usd)
        (ordOptQDesc a.current_cost_usd b.current_cost_usd)))
    ((deduped excl sizes prices usage).map project)

/-- `initialize_after_loading_usage` up to the ranked view: the ladder comes
from the observed classes, the price table is injected. -/
def initialize_ranked (excl : List String) (prices : List PriceRowA)
    (usage : List UsageRow) : List RankedRow :=
  rds_actions_ranked excl
    (refresh_rds_sizes_from_usage (usage.filterMap (fun u => u.instance_class)))
    prices usage

/-- Modelled from the claim's words, NOT from the code: the ranked view as it
would be if deduplication ran BEFORE the economic floor filter (group by
resource, keep the best candidate, then drop survivors below the floor).
Defined only to be compared against `rds_actions_ranked`. -/
def claimed_dedup_before_floor (excl : List String) (sizes : List SizeEntry)
    (prices : List PriceRowA) (usage : List UsageRow) : List RankedRow :=
  sortByB (fun a b =>
      ordLe (ordThen (ordOptQDesc a.est_monthly_savings_usd b.est_monthly_savings_usd)
        (ordOptQDesc a.current_cost_usd b.current_cost_usd)))
    (((dedupBy (prioSavBetter (fun a => a.priority) (fun a => a.est_monthly_savings_usd)) dkey
        (all_actions excl sizes prices usage)).filter
      (fun a => a.est_monthly_savings_usd.getD 0 ≥ 25)).map project)

end RdsAgent

/-! ## ebs1.py: normalization, candidate views, union, ranked actions -/

namespace Ebs

/-- One row of the `ebs` table (the columns the views read). -/
structure EbsRow where
  billing_period : Option String
  business_area : Option String
  region : Option String
  volume_id : Option String
  volume_state : Option String
  volume_type : Option String
  size_gb : Option ℚ
  days_since_last_attached : Option ℚ
  public_cost_usd : Option ℚ
deriving DecidableEq

/-- The `ebs_assumptions` constants. -/
def pct_gp2_to_gp3 : ℚ := 0.20
def pct_standard_to_gp3 : ℚ := 0.40
def long_idle_days : ℚ := 30
def very_long_idle_days : ℚ := 90

/-- One row of `ebs_norm`. -/
structure NormRow extends EbsRow where
  attach_state : String
  volume_type_norm : Option String
  monthly_cost_usd : Option ℚ
deriving DecidableEq

/-- `ebs_norm`: normalize the attach state (CASE over lowered state, with
`COALESCE(volume_state,'Unknown')` as the fallback), lower the type. -/
def ebs_norm (rows : List EbsRow) : List NormRow :=
  rows.map fun e =>
    { toEbsRow := e,
      attach_state :=
        match e.volume_state with
        | some st =>
          let l := lowerStr st
          if l = "available" ∨ l = "detached" then "Detached"
          else if l = "in-use" ∨ l = "in use" then "Attached"
          else st
        | none => "Unknown",
      volume_type_norm := e.volume_type.map lowerStr,
      monthly_cost_usd := e.public_cost_usd }

/-- `ebs_unattached`: the detached volumes. -/
def ebs_unattached (rows : List EbsRow) : List NormRow :=
  sortByB (fun a b =>
      ordLe (ordThen (ordOptQDesc a.monthly_cost_usd b.monthly_cost_usd)
        (ordOptQDesc a.size_gb b.size_gb)))
    ((ebs_norm rows).filter (fun n => n.attach_state = "Detached"))

/-- One row of `ebs_unattached_long_idle`. -/
structure LongIdleRow extends NormRow where
  confidence : String
  suggested_action : String
deriving DecidableEq

/-- `ebs_unattached_long_idle`: EVERY detached volume, with a confidence
graded by idle days (High at 90+, Medium at 30+, else Low; unknown is Low).
There is no idle-days filter. -/
def ebs_unattached_long_idle (rows : List EbsRow) : List LongIdleRow :=
  sortByB (fun a b =>
      ordLe (ordThen (ordOptQDesc a.monthly_cost_usd b.monthly_cost_usd)
        (ordOptQDesc a.days_since_last_attached b.days_since_last_attached)))
    ((ebs_unattached rows).map fun u =>
      { toNormRow := u,
        confidence :=
          match u.days_since_last_attached with
          | none => "Low"
          | some d =>
            if d ≥ very_long_idle_days then "High"
            else if d ≥ long_idle_days then "Medium"
            else "Low",
        suggested_action := "delete_idle" })

/-- One row of the tier-migration views. -/
structure TierRow where
  billing_period : Option String
  business_area : Option String
  region : Option String
  volume_id : Option String
  size_gb : Option ℚ
  monthly_cost_usd : Option ℚ
  pct : ℚ
  est_monthly_savings_usd : Option ℚ
  suggested_action : String
deriving DecidableEq

/-- `ebs_gp2_to_gp3`: gp2 volumes, savings are a fixed 20 percent of cost. -/
def ebs_gp2_to_gp3 (rows : List EbsRow) : List TierRow :=
  sortByB (fun a b => ordLe (ordOptQDesc a.est_monthly_savings_usd b.est_monthly_savings_usd))
    ((ebs_norm rows).filterMap fun n =>
      if n.volume_type_norm = some "gp2" then
        some { billing_period := n.billing_period, business_area := n.business_area,
               region := n.region, volume_id := n.volume_id, size_gb := n.size_gb,
               monthly_cost_usd := n.monthly_cost_usd, pct := pct_gp2_to_gp3,
               est_monthly_savings_usd :=
                 n.monthly_cost_usd.map (fun c => round2 (c * pct_gp2_to_gp3)),
               suggested_action := "migrate_gp2_to_gp3" }
      else none)

/-- `ebs_standard_to_gp3`: legacy magnetic volumes, a fixed 40 percent. -/
def ebs_standard_to_gp3 (rows : List EbsRow) : List TierRow :=
  sortByB (fun a b => ordLe (ordOptQDesc a.est_monthly_savings_usd b.est_monthly_savings_usd))
    ((ebs_norm rows).filterMap fun n =>
      if n.volume_type_norm = some "standard" then
        some { billing_period := n.billing_period, business_area := n.business_area,
               region := n.region, volume_id := n.volume_id, size_gb := n.size_gb,
               monthly_cost_usd := n.monthly_cost_usd, pct := pct_standard_to_gp3,
               est_monthly_savings_usd :=
                 n.monthly_cost_usd.map (fun c => round2 (c * pct_standard_to_gp3)),
               suggested_action := "migrate_standard_to_gp3" }
      else none)

/-- One row of `ebs_hdd_review`. -/
structure HddRow where
  billing_period : Option String
  business_area : Option String
  region : Option String
  volume_id : Option String
  volume_type : Option String
  attach_state : String
  size_gb : Option ℚ
  monthly_cost_usd : Option ℚ
  recommendation : String
deriving DecidableEq

/-- `ebs_hdd_review`: sc1/st1 volumes with a textual recommendation. -/
def ebs_hdd_review (rows : List EbsRow) : List HddRow :=
  sortByB (fun a b =>
      ordLe (ordThen (ordOptQDesc a.monthly_cost_usd b.monthly_cost_usd)
        (ordOptQDesc a.size_gb b.size_gb)))
    ((ebs_norm rows).filterMap fun n =>
      if n.volume_type_norm = some "sc1" ∨ n.volume_type_norm = some "st1" then
        some { billing_period := n.billing_period, business_area := n.business_area,
               region := n.region, volume_id := n.volume_id,
               volume_type := n.volume_type_norm, attach_state := n.attach_state,
               size_gb := n.size_gb, monthly_cost_usd := n.monthly_cost_usd,
               recommendation := if n.attach_state = "Detached" then "Delete if safe"
                 else "Validate throughput profile; consider gp3 if SSD fits" }
      else none)

/-- One row of `ebs_actions_union`. -/
structure EbsActionRow where
  billing_period : Option String
  business_area : Option String
  region : Option String
  volume_id : Option String
  action : String
  est_savings_usd : Option ℚ
  confidence : String
  reason : String
deriving DecidableEq

/-- `ebs_actions_union`: the four candidate views as one action list.
The delete_idle branch carries the volume's full monthly cost as savings. -/
def ebs_actions_union (rows : List EbsRow) : List EbsActionRow :=
  ((ebs_unattached_long_idle rows).map fun r =>
    { billing_period := r.billing_period, business_area := r.business_area,
      region := r.region, volume_id := r.volume_id, action := "delete_idle",
      est_savings_usd := r.monthly_cost_usd, confidence := r.confidence,
      reason := "Long idle & detached" })
  ++ ((ebs_gp2_to_gp3 rows).map fun r =>
    { billing_period := r.billing_period, business_area := r.business_area,
      region := r.region, volume_id := r.volume_id, action := "migrate_gp2_to_gp3",
      est_savings_usd := r.est_monthly_savings_usd, confidence := "High",
      reason := "gp2 → gp3 cost delta (assumed ratio)" })
  ++ ((ebs_standard_to_gp3 rows).map fun r =>
    { billing_period := r.billing_period, business_area := r.business_area,
      region := r.region, volume_id := r.volume_id, action := "migrate_standard_to_gp3",
      est_savings_usd := r.est_monthly_savings_usd, confidence := "High",
      reason := "legacy magnetic → gp3 (assumed ratio)" })
  ++ ((ebs_hdd_review rows).map fun r =>
    { billing_period := r.billing_period, business_area := r.business_area,
      region := r.region, volume_id := r.volume_id, action := "review_hdd",
      est_savings_usd := r.monthly_cost_usd,
      confidence := if r.attach_state = "Detached" then "High" else "Medium",
      reason := r.recommendation })

/-- `ebs_actions_union_all` in the fallback branch: the `ebs` table has no
IOPS columns, so the optional io1 view does not exist and the union is
unchanged. -/
def ebs_actions_union_all (rows : List EbsRow) : List EbsActionRow :=
  ebs_actions_union rows

/-- The `RANK() OVER (PARTITION BY billing_period ORDER BY est_savings_usd
DESC NULLS LAST, business_area, region, volume_id)` window order. -/
def ebsOrd (a b : EbsActionRow) : Ordering :=
  ordThen (ordOptQDesc a.est_savings_usd b.est_savings_usd)
    (ordThen (ordOptStr a.business_area b.business_area)
      (ordThen (ordOptStr a.region b.region) (ordOptStr a.volume_id b.volume_id)))

/-- One row of `ebs_actions_ranked`. -/
structure EbsRankedRow extends EbsActionRow where
  rank_in_period : ℕ
deriving DecidableEq

/-- `ebs_actions_ranked`: the union rows with their per-period rank
(1 + the number of rows of the same period strictly ahead in the window
order). There is NO economic floor in this pipeline. -/
def ebs_actions_ranked (rows : List EbsRow) : List EbsRankedRow :=
  let u := ebs_actions_union_all rows
  sortByB (fun a b => ordLe (ordOptQDesc a.est_savings_usd b.est_savings_usd))
    (u.map (fun r =>
      { toEbsActionRow := r,
        rank_in_period := 1 + (u.countP (fun r2 =>
          r2.billing_period = r.billing_period ∧ ebsOrd r2 r = Ordering.lt)) }))

end Ebs

/-! ## ec2_ops_setup.py: operational optimization views -/

namespace Ec2

/-- One row of the `ec2_ops_usage` table (dates as (year, month)). -/
structure Ec2Row where
  billing_year : ℕ
  billing_month : ℕ
  account_id : Option String
  business_area : Option String
  resource_id : Option String
  purchase_option : Option String
  region : Option String
  current_instance_type : Option String
  usage_quantity_hours : Option ℚ
  total_cost_usd : Option ℚ
  avg_cpu_14d : Option ℚ
  number_days_of_consistent_data : Option ℤ
  recommended_instance_type : Option String
  ta_rightsize_savings_usd : Option ℚ
deriving DecidableEq

/-- `purchase_option ILIKE 'ondemand'` (NULL never matches). -/
def isOnDemand (u : Ec2Row) : Bool := lowerStr (u.purchase_option.getD "") = "ondemand"

/-- The character class `[a-z0-9]`. -/
def alnumLower (c : Char) : Bool := ('a' ≤ c ∧ c ≤ 'z') ∨ ('0' ≤ c ∧ c ≤ '9')

/-- `re.match(r"^([a-z0-9]+)\\.([^.]+)$", t)` of `refresh_ec2_sizes`: the
doubled backslash in the RAW string makes the pattern
`group1, a literal backslash, any character, group2, end`. The greedy
`[a-z0-9]+` is modelled by trying the longest group 1 first. -/
def buggyEc2TypeMatch (cs : List Char) : Option (List Char × List Char) :=
  ((List.range cs.length).reverse).findSome? (fun i =>
    if i = 0 then none
    else
      let g1 := cs.take i
      match cs.drop i with
      | sep :: c :: g2 =>
        if sep = '\\' ∧ g1.all alnumLower ∧ c ≠ '\n' ∧ g2 ≠ [] ∧ g2.all notDot then
          some (g1, g2)
        else none
      | _ => none)

/-- `refresh_ec2_sizes`: parse the distinct observed types with the buggy
regex, rank through `_SIZE_ORDER`, dense-rank per family; `if not rows:
return` keeps the previous table contents. -/
def refresh_ec2_sizes (old : List SizeEntry) (types : List String) : List SizeEntry :=
  let rows := ((types.dedup.filterMap (fun t => (buggyEc2TypeMatch t.data).map
      (fun g => (String.mk g.1, lowerStr (String.mk g.2))))).filterMap
    (fun p => (sizeOrdAgent p.2).map (fun o => (p.1, p.2, o)))).dedup
  if rows = [] then old else denseRankEntries rows

/-- `SELECT DISTINCT current_instance_type FROM ec2_ops_usage WHERE ... NOT NULL`. -/
def usageTypes (usage : List Ec2Row) : List String :=
  (usage.filterMap (fun u => u.current_instance_type)).dedup

/-- `ec2_od_hourly`: observed on-demand hourly price per (region, type),
`SUM(cost) / NULLIF(SUM(hours), 0)` (NULL when no costs or zero hours). -/
def ec2_od_hourly (usage : List Ec2Row) (reg ty : String) : Option ℚ :=
  let grp := usage.filter (fun u =>
    isOnDemand u && u.region = some reg && u.current_instance_type = some ty)
  let costs := grp.filterMap (fun u => u.total_cost_usd)
  let hrs := grp.filterMap (fun u => u.usage_quantity_hours)
  match costs with
  | [] => none
  | _ =>
    let s := hrs.foldl (· + ·) 0
    if s = 0 then none else some ((costs.foldl (· + ·) 0) / s)

/-- The LEFT JOIN against `ec2_od_hourly` on a nullable region. -/
def ec2_od_lookup (usage : List Ec2Row) (reg : Option String) (ty : String) : Option ℚ :=
  match reg with
  | none => none
  | some r => ec2_od_hourly usage r ty

/-- The `approx_247` flag of `ec2_usage_flags`. -/
def ec2_approx_247 (u : Ec2Row) : ℕ :=
  match u.usage_quantity_hours with
  | some h =>
    if h ≥ 0.98 * ((daysInMonth u.billing_year u.billing_month : ℚ) * 24) then 1 else 0
  | none => 0

/-- `lower(coalesce(resource_id, ''))`. -/
def ec2_name_l (u : Ec2Row) : String := lowerStr (u.resource_id.getD "")

/-- The dev/test/staging name test of the EC2 views. -/
def ec2_nonprod_name (u : Ec2Row) : Bool :=
  containsSub (ec2_name_l u) "dev" || containsSub (ec2_name_l u) "test" ||
  containsSub (ec2_name_l u) "staging"

/-- One row of `ec2_spot_candidates`. -/
structure SpotRow where
  billing_year : ℕ
  billing_month : ℕ
  account_id : Option String
  business_area : Option String
  resource_id : Option String
  region : Option String
  current_instance_type : Option String
  usage_quantity_hours : Option ℚ
  total_cost_usd : Option ℚ
  avg_cpu_14d : ℚ
  target_purchase_option : String
  est_monthly_savings_usd : Option ℚ
  confidence : String
  reason : String
deriving DecidableEq

/-- `ec2_spot_candidates`: on-demand rows with CPU known and below 20;
savings are cost times the assumed 0.6 spot discount (the default
`assumed_spot_discount`). -/
def ec2_spot_candidates (usage : List Ec2Row) : List SpotRow :=
  usage.filterMap fun u =>
    match u.avg_cpu_14d with
    | some cpu =>
      if isOnDemand u ∧ cpu < 20 then
        some { billing_year := u.billing_year, billing_month := u.billing_month,
               account_id := u.account_id, business_area := u.business_area,
               resource_id := u.resource_id, region := u.region,
               current_instance_type := u.current_instance_type,
               usage_quantity_hours := u.usage_quantity_hours,
               total_cost_usd := u.total_cost_usd, avg_cpu_14d := cpu,
               target_purchase_option := "Spot",
               est_monthly_savings_usd := u.total_cost_usd.map (fun c => round2 (c * 0.6)),
               confidence := if ec2_nonprod_name u then "High"
                 else if cpu < 10 then "Medium" else "Low",
               reason := "OnDemand → Spot (assume ~60% saving) — validate interruption tolerance" }
      else none
    | none => none

/-- One row of `ec2_schedule_candidates`. -/
structure SchedRow where
  billing_year : ℕ
  billing_month : ℕ
  account_id : Option String
  business_area : Option String
  resource_id : Option String
  region : Option String
  current_instance_type : Option String
  usage_quantity_hours : Option ℚ
  total_cost_usd : Option ℚ
  avg_cpu_14d : Option ℚ
  est_monthly_savings_usd : Option ℚ
  confidence : String
  reason : String
deriving DecidableEq

/-- `ec2_schedule_candidates`: the nonprod-24x7 flavor (65 percent) union
the align-to-observed flavor (`1 - hours / month-hours`). -/
def ec2_schedule_candidates (usage : List Ec2Row) : List SchedRow :=
  sortByB (fun a b =>
      ordLe (ordThen (ordOptQDesc a.est_monthly_savings_usd b.est_monthly_savings_usd)
        (ordOptQDesc a.total_cost_usd b.total_cost_usd)))
    ((usage.filterMap fun u =>
        if isOnDemand u ∧ ec2_approx_247 u = 1 ∧ ec2_nonprod_name u then
          some { billing_year := u.billing_year, billing_month := u.billing_month,
                 account_id := u.account_id, business_area := u.business_area,
                 resource_id := u.resource_id, region := u.region,
                 current_instance_type := u.current_instance_type,
                 usage_quantity_hours := u.usage_quantity_hours,
                 total_cost_usd := u.total_cost_usd, avg_cpu_14d := u.avg_cpu_14d,
                 est_monthly_savings_usd :=
                   u.total_cost_usd.map (fun c => round2 (c * 0.65)),
                 confidence := "High",
                 reason := "Non-prod 24x7 → 5x12 schedule (~65% saving)" }
        else none)
      ++ (usage.filterMap fun u =>
        if isOnDemand u ∧ ec2_approx_247 u = 0 then
          some { billing_year := u.billing_year, billing_month := u.billing_month,
                 account_id := u.account_id, business_area := u.business_area,
                 resource_id := u.resource_id, region := u.region,
                 current_instance_type := u.current_instance_type,
                 usage_quantity_hours := u.usage_quantity_hours,
                 total_cost_usd := u.total_cost_usd, avg_cpu_14d := u.avg_cpu_14d,
                 est_monthly_savings_usd :=
                   match u.total_cost_usd, u.usage_quantity_hours with
                   | some c, some h => some (round2 (c *
                       (1 - h / ((daysInMonth u.billing_year u.billing_month : ℚ) * 24))))
                   | _, _ => none,
                 confidence := "Medium",
                 reason := "Observed hours << month — align schedule to actual duty cycle" }
        else none))

/-- The view regex `regexp_extract(current_instance_type,'^([a-z0-9]+)\.',1)`
of `ec2_with_family` (this one is written correctly in the SQL string). -/
def ec2_family (t : String) : Option String :=
  let p := t.data.takeWhile alnumLower
  match t.data.dropWhile alnumLower with
  | '.' :: _ => if p = [] then none else some (String.mk p)
  | _ => none

/-- The view regex `regexp_extract(current_instance_type,'\.([^.]+)$',1)`. -/
def asSize (t : String) : Option String :=
  let rev := t.data.reverse
  let r := rev.takeWhile notDot
  match rev.dropWhile notDot with
  | '.' :: _ => if r = [] then none else some (String.mk r.reverse)
  | _ => none

/-- One row of `ec2_rightsize_candidates`. -/
structure Ec2RsRow where
  billing_year : ℕ
  billing_month : ℕ
  account_id : Option String
  business_area : Option String
  resource_id : Option String
  region : Option String
  current_instance_type : String
  recommended_instance_type_ours : String
  usage_quantity_hours : Option ℚ
  total_cost_usd : Option ℚ
  avg_cpu_14d : ℚ
  current_hourly : Option ℚ
  target_hourly : Option ℚ
  est_monthly_savings_usd : Option ℚ
  reason : String
  confidence : String
deriving DecidableEq

/-- `ec2_rightsize_candidates`: on-demand, CPU known and below 30, a ranked
size with a smaller size available, observed prices LEFT JOINed; savings
only when both hourly prices resolved. -/
def ec2_rightsize_candidates (usage : List Ec2Row) (sizes : List SizeEntry) :
    List Ec2RsRow :=
  sortByB (fun a b =>
      ordLe (ordThen (ordOptQDesc a.est_monthly_savings_usd b.est_monthly_savings_usd)
        (ordOptQDesc a.total_cost_usd b.total_cost_usd)))
    (usage.filterMap fun u =>
      match u.current_instance_type, u.avg_cpu_14d with
      | some ty, some cpu =>
        if isOnDemand u ∧ cpu < 30 then
          match ec2_family ty, asSize ty with
          | some f, some s =>
            match sizes.find? (fun e => e.family = f && e.size = lowerStr s) with
            | some e =>
              if 1 < e.size_rank then
                match sizes.find? (fun e2 =>
                    e2.family = f && e2.size_rank = e.size_rank - 1) with
                | some e2 =>
                  let cur := ec2_od_lookup usage u.region ty
                  let tgt := ec2_od_lookup usage u.region (f ++ "." ++ e2.size)
                  some { billing_year := u.billing_year, billing_month := u.billing_month,
                         account_id := u.account_id, business_area := u.business_area,
                         resource_id := u.resource_id, region := u.region,
                         current_instance_type := ty,
                         recommended_instance_type_ours := f ++ "." ++ e2.size,
                         usage_quantity_hours := u.usage_quantity_hours,
                         total_cost_usd := u.total_cost_usd, avg_cpu_14d := cpu,
                         current_hourly := cur, target_hourly := tgt,
                         est_monthly_savings_usd :=
                           match cur, tgt with
                           | some c, some t =>
                             u.usage_quantity_hours.map (fun h => round2 (h * (c - t)))
                           | _, _ => none,
                         reason := "OnDemand rightsizing: CPU<30% → next smaller",
                         confidence := if cur ≠ none ∧ tgt ≠ none then "High" else "Medium" }
                | none => none
              else none
            | none => none
          | _, _ => none
        else none
      | _, _ => none)

/-- One row of the `all_actions` CTE of `ec2_ops_actions_ranked`. -/
structure Ec2ARow where
  action : String
  service : String
  resource_id : Option String
  business_area : Option String
  region : Option String
  current_instance_type : Option String
  current_cost_usd : Option ℚ
  est_monthly_savings_usd : Option ℚ
  reason : String
  confidence : String
  priority : ℕ
deriving DecidableEq

/-- The unified EC2 action list (priority: schedule 3 > rightsize 2 > spot 1). -/
def ec2_ops_all_actions (usage : List Ec2Row) (sizes : List SizeEntry) : List Ec2ARow :=
  ((ec2_schedule_candidates usage).map fun r =>
    { action := "schedule", service := "ec2", resource_id := r.resource_id,
      business_area := r.business_area, region := r.region,
      current_instance_type := r.current_instance_type,
      current_cost_usd := r.total_cost_usd,
      est_monthly_savings_usd := r.est_monthly_savings_usd,
      reason := r.reason, confidence := r.confidence, priority := 3 })
  ++ ((ec2_rightsize_candidates usage sizes).map fun r =>
    { action := "rightsize", service := "ec2", resource_id := r.resource_id,
      business_area := r.business_area, region := r.region,
      current_instance_type := some r.current_instance_type,
      current_cost_usd := r.total_cost_usd,
      est_monthly_savings_usd := r.est_monthly_savings_usd,
      reason := r.reason, confidence := r.confidence, priority := 2 })
  ++ ((ec2_spot_candidates usage).map fun r =>
    { action := "spot", service := "ec2", resource_id := r.resource_id,
      business_area := r.business_area, region := r.region,
      current_instance_type := r.current_instance_type,
      current_cost_usd := r.total_cost_usd,
      est_monthly_savings_usd := r.est_monthly_savings_usd,
      reason := r.reason, confidence := r.confidence, priority := 1 })

/-- One row of the final `ec2_ops_actions_ranked` view. -/
structure Ec2RankedRow where
  action : String
  service : String
  resource_id : Option String
  business_area : Option String
  region : Option String
  current_instance_type : Option String
  current_cost_usd : Option ℚ
  est_monthly_savings_usd : Option ℚ
  reason : String
  confidence : String
deriving DecidableEq

/-- `ec2_ops_actions_ranked`: dedup by resource (highest priority, then
largest savings), project, order for presentation. There is no economic
floor in this pipeline. -/
def ec2_ops_actions_ranked (usage : List Ec2Row) (sizes : List SizeEntry) :
    List Ec2RankedRow :=
  sortByB (fun a b =>
      ordLe (ordThen (ordOptQDesc a.est_monthly_savings_usd b.est_monthly_savings_usd)
        (ordOptQDesc a.current_cost_usd b.current_cost_usd)))
    ((dedupBy (prioSavBetter (fun a => a.priority) (fun a => a.est_monthly_savings_usd))
        (fun a => a.resource_id) (ec2_ops_all_actions usage sizes)).map
      (fun a =>
        { action := a.action, service := a.service, resource_id := a.resource_id,
          business_area := a.business_area, region := a.region,
          current_instance_type := a.current_instance_type,
          current_cost_usd := a.current_cost_usd,
          est_monthly_savings_usd := a.est_monthly_savings_usd,
          reason := a.reason, confidence := a.confidence }))

/-- `initialize_after_load` up to the ranked view, starting from an empty
`ec2_sizes` table. -/
def initialize_ops_ranked (usage : List Ec2Row) : List Ec2RankedRow :=
  ec2_ops_actions_ranked usage (refresh_ec2_sizes [] (usageTypes usage))

end Ec2

/-! ## Concrete batches used to settle the claims

Each batch is small enough for the kernel to evaluate the whole pipeline on
it; the rows use simple rationals so every arithmetic step stays exact. -/

/-- A price table for the `rds.py` ranked-view batch. -/
def c1prices : List RdsPy.PriceRow :=
  [{ region := "us-east-1", instance_class := "db.r5.large",
     purchase_option := "OnDemand", price_per_hour_usd := 1/10 }]

/-- An idle nonprod database: kill/merge, downsize and offhours all fire. -/
def c1rawA : RdsPy.NormRow :=
  { account_id := some "a1", business_area := some "Ops", db_id := some "dev-x",
    region := some "us-east-1", current_class := some "db.r5.xlarge",
    avg_cpu_14d := some 4, hours := some 720, cost_usd := some 200 }

/-- A quiet row that only seeds the `db.r5.large` rung of the ladder. -/
def c1rawB : RdsPy.NormRow :=
  { account_id := some "a1", business_area := some "Ops", db_id := some "y",
    region := some "us-east-1", current_class := some "db.r5.large",
    avg_cpu_14d := some 50, hours := some 0, cost_usd := some 0 }

/-- The two-rung `db.r5` ladder of the agent flavor. -/
def ladderXL : List SizeEntry :=
  RdsAgent.refresh_rds_sizes_from_usage ["db.r5.xlarge", "db.r5.large"]

/-- Agent price table: current 0.20/hr, next smaller 0.15/hr. -/
def c2prices : List RdsAgent.PriceRowA :=
  [{ instance_class := "db.r5.xlarge", region := "r", deployment := none,
     engine := none, hourly_usd := 1/5, price_date := none },
   { instance_class := "db.r5.large", region := "r", deployment := none,
     engine := none, hourly_usd := 3/20, price_date := none }]

/-- A nonprod database where both downsize (36) and offhours (65) fire. -/
def c2usageA : RdsAgent.UsageRow :=
  { billing_year := 2025, billing_month := 4, account_id := none,
    account_name := none, BA := none, db_id := some "dev-a", region := some "r",
    instance_class := some "db.r5.xlarge", hours := some 720, cost_usd := some 100,
    avg_cpu_14d := some 7, consistent_days := none }

/-- A quiet row that only seeds the `db.r5.large` rung of the ladder. -/
def c2usageB : RdsAgent.UsageRow :=
  { billing_year := 2025, billing_month := 4, account_id := none,
    account_name := none, BA := none, db_id := some "seed", region := some "r",
    instance_class := some "db.r5.large", hours := none, cost_usd := none,
    avg_cpu_14d := none, consistent_days := none }

/-- The downsize action row the batch of `c2usageA` produces. -/
def c2downsizeRow : RdsAgent.ARow :=
  { action := "downsize", service := "rds", resource_id := some "dev-a",
    account_name := none, BA := none, region := some "r",
    current_config := some "db.r5.xlarge", current_cost_usd := some 100,
    est_monthly_savings_usd := some 36,
    reason := some "CPU5–10%, next size down; avg_cpu_14d=7",
    assumptions := some "On-demand price delta × hours; price_date=unknown",
    confidence := "High", priority := 2, billing_year := 2025, billing_month := 4 }

/-- The offhours action row the batch of `c2usageA` produces. -/
def c2offhoursRow : RdsAgent.ARow :=
  { action := "offhours", service := "rds", resource_id := some "dev-a",
    account_name := none, BA := none, region := some "r",
    current_config := some "db.r5.xlarge", current_cost_usd := some 100,
    est_monthly_savings_usd := some 65,
    reason := some "Non-prod & 24x7; hours=720",
    assumptions := some "Assume 5x12 schedule (~65% savings)",
    confidence := "High", priority := 1, billing_year := 2025, billing_month := 4 }

/-- Agent price table with a tiny price delta: downsize saves only 3.60. -/
def c3prices : List RdsAgent.PriceRowA :=
  [{ instance_class := "db.r5.xlarge", region := "r", deployment := none,
     engine := none, hourly_usd := 1/5, price_date := none },
   { instance_class := "db.r5.large", region := "r", deployment := none,
     engine := none, hourly_usd := 39/200, price_date := none }]

/-- A nonprod database: downsize est 3.60 (below the floor), offhours est 65. -/
def c3usage : RdsAgent.UsageRow :=
  { billing_year := 2025, billing_month := 4, account_id := none,
    account_name := none, BA := none, db_id := some "dev-a", region := some "r",
    instance_class := some "db.r5.xlarge", hours := some 720, cost_usd := some 100,
    avg_cpu_14d := some 7, consistent_days := none }

/-- The offhours action row of the `c3usage` batch. -/
def c3offARow : RdsAgent.ARow :=
  { action := "offhours", service := "rds", resource_id := some "dev-a",
    account_name := none, BA := none, region := some "r",
    current_config := some "db.r5.xlarge", current_cost_usd := some 100,
    est_monthly_savings_usd := some 65,
    reason := some "Non-prod & 24x7; hours=720",
    assumptions := some "Assume 5x12 schedule (~65% savings)",
    confidence := "High", priority := 1, billing_year := 2025, billing_month := 4 }

/-- Its projection into the final ranked view. -/
def c3rankedRow : RdsAgent.RankedRow := RdsAgent.project c3offARow

/-- An attached gp2 volume at 10 USD/month: migration saves only 2 USD. -/
def c4row : Ebs.EbsRow :=
  { billing_period := some "2025-07", business_area := some "b", region := some "r",
    volume_id := some "vol-1", volume_state := some "in-use", volume_type := some "gp2",
    size_gb := some 10, days_since_last_attached := none, public_cost_usd := some 10 }

/-- `rds.py` batch for the savings-formula claim. -/
def c5raws : List RdsPy.NormRow :=
  [{ account_id := none, business_area := some "Ops", db_id := some "x1",
     region := some "r", current_class := some "db.r5.xlarge",
     avg_cpu_14d := some 4, hours := some 720, cost_usd := some 100 },
   { account_id := none, business_area := some "Ops", db_id := some "x2",
     region := some "r", current_class := some "db.r5.large",
     avg_cpu_14d := some 50, hours := some 0, cost_usd := some 0 }]

/-- `rds.py` price table: current 0.20/hr, next smaller 0.10/hr. -/
def c5prices : List RdsPy.PriceRow :=
  [{ region := "r", instance_class := "db.r5.xlarge", purchase_option := "OnDemand",
     price_per_hour_usd := 1/5 },
   { region := "r", instance_class := "db.r5.large", purchase_option := "OnDemand",
     price_per_hour_usd := 1/10 }]

/-- The priced downsize view of `rds.py` on the `c5raws` batch. -/
def c5view : List RdsPy.RsPricedRow :=
  let clean := RdsPy.rds_clean c5raws
  let env := RdsPy.rds_env_detect RdsPy.rds_env_patterns [] clean
  let sizes := RdsPy.refresh_rds_sizes_from_usage (clean.map (fun r => r.current_class))
  let sized := RdsPy.create_rds_with_size sizes env
  RdsPy.rds_rightsize_next_smaller_priced c5prices
    (RdsPy.rds_rightsize_next_smaller sizes sized)

/-- Agent price table with a 0.10/hr delta between the two rungs. -/
def c5pricesA : List RdsAgent.PriceRowA :=
  [{ instance_class := "db.r5.xlarge", region := "r", deployment := none,
     engine := none, hourly_usd := 1/5, price_date := none },
   { instance_class := "db.r5.large", region := "r", deployment := none,
     engine := none, hourly_usd := 1/10, price_date := none }]

/-- A 4-percent-CPU instance over 720 hours: the agent savings come to 72. -/
def c5agentUsage : RdsAgent.UsageRow :=
  { billing_year := 2025, billing_month := 7, account_id := none,
    account_name := none, BA := none, db_id := some "x1", region := some "r",
    instance_class := some "db.r5.xlarge", hours := some 720, cost_usd := some 144,
    avg_cpu_14d := some 4, consistent_days := none }

/-- The agent downsize-view row of the `c5agentUsage` batch. -/
def c5agentRow : RdsAgent.RsRowA :=
  { billing_year := 2025, billing_month := 7, account_id := none,
    account_name := none, BA := none, db_id := some "x1", region := some "r",
    current_class := "db.r5.xlarge", recommended_class := "db.r5.large",
    hours := some 720, current_cost_usd := some 144, current_hourly := 1/5,
    target_hourly := 1/10, price_date := none,
    est_monthly_savings_usd := some 72, avg_cpu_14d := 4 }

/-- A nonprod database running only 100 of July's 744 hours. -/
def c6lowUsage : RdsAgent.UsageRow :=
  { billing_year := 2025, billing_month := 7, account_id := none,
    account_name := none, BA := none, db_id := some "dev-x", region := none,
    instance_class := none, hours := some 100, cost_usd := some 40,
    avg_cpu_14d := none, consistent_days := none }

/-- The spec scenario: `dev-web-01`, 720 of April's 720 hours, 100 USD. -/
def c6webUsage : RdsAgent.UsageRow :=
  { billing_year := 2025, billing_month := 4, account_id := none,
    account_name := none, BA := none, db_id := some "dev-web-01", region := none,
    instance_class := none, hours := some 720, cost_usd := some 100,
    avg_cpu_14d := none, consistent_days := none }

/-- A volume detached for only 5 days, at 50 USD/month. -/
def c7idleShort : Ebs.EbsRow :=
  { billing_period := some "2025-07", business_area := some "b", region := some "r",
    volume_id := some "vol-s", volume_state := some "available", volume_type := none,
    size_gb := some 8, days_since_last_attached := some 5, public_cost_usd := some 50 }

/-- The spec scenario: a volume detached for 95 days, at 50 USD/month. -/
def c7idleLong : Ebs.EbsRow :=
  { billing_period := some "2025-07", business_area := some "b", region := some "r",
    volume_id := some "vol-95", volume_state := some "detached", volume_type := none,
    size_gb := some 8, days_since_last_attached := some 95, public_cost_usd := some 50 }

/-- The `ebs_norm` row of `c7idleLong`. -/
def c7norm95 : Ebs.NormRow :=
  { toEbsRow := c7idleLong, attach_state := "Detached", volume_type_norm := none,
    monthly_cost_usd := some 50 }

/-- The priced downsize view of `rds.py` on `c5raws` with an empty price table. -/
def c8view : List RdsPy.RsPricedRow :=
  let clean := RdsPy.rds_clean c5raws
  let env := RdsPy.rds_env_detect RdsPy.rds_env_patterns [] clean
  let sizes := RdsPy.refresh_rds_sizes_from_usage (clean.map (fun r => r.current_class))
  let sized := RdsPy.create_rds_with_size sizes env
  RdsPy.rds_rightsize_next_smaller_priced []
    (RdsPy.rds_rightsize_next_smaller sizes sized)

/-- A two-rung `db.r5` ladder of the `rds.py` flavor. -/
def c9ladder : List SizeEntry :=
  RdsPy.refresh_rds_sizes_from_usage ["db.r5.large", "db.r5.xlarge"]

/-- An on-demand EC2 instance with a perfectly ordinary dotted type name. -/
def c10usage : Ec2.Ec2Row :=
  { billing_year := 2025, billing_month := 7, account_id := none,
    business_area := none, resource_id := some "i-1",
    purchase_option := some "OnDemand", region := some "r",
    current_instance_type := some "m5.large", usage_quantity_hours := some 720,
    total_cost_usd := some 100, avg_cpu_14d := some 10,
    number_days_of_consistent_data := none, recommended_instance_type := none,
    ta_rightsize_savings_usd := none }

/-! ## Helper lemmas for the claim theorems -/

/-- Sorting neither adds nor removes rows. -/
theorem mem_sortByB {α : Type} {cmp : α → α → Bool} {l : List α} {x : α} :
    x ∈ sortByB cmp l ↔ x ∈ l :=
  (List.perm_insertionSort (fun a b => cmp a b = true) l).mem_iff

/-- Sorting preserves every predicate count. -/
theorem countP_sortByB {α : Type} (cmp : α → α → Bool) (l : List α) (p : α → Bool) :
    (sortByB cmp l).countP p = l.countP p :=
  (List.perm_insertionSort (fun a b => cmp a b = true) l).countP_eq p

/-- Dedup, then a key-preserving projection, then a sort: at most one row per
key survives to the end. -/
theorem countP_sort_map_dedup {α β : Type} {κ : Type} [DecidableEq κ]
    (b : α → α → Bool) (key : α → κ) (f : α → β) (cmp : β → β → Bool)
    (q : β → κ) (l : List α) (k : κ) (hq : ∀ a, q (f a) = key a) :
    (sortByB cmp ((dedupBy b key l).map f)).countP (fun x => q x = k) ≤ 1 := by
  rw [countP_sortByB, List.countP_map]
  have he : ((fun x => decide (q x = k)) ∘ f) = fun a => decide (key a = k) := by
    funext a
    simp [hq a]
  rw [he]
  exact dedupBy_countP_le_one l k

/-- Without a literal backslash in the type string, the doubled-backslash EC2
pattern cannot match at any split point. -/
theorem buggyEc2TypeMatch_eq_none {cs : List Char} (h : '\\' ∉ cs) :
    Ec2.buggyEc2TypeMatch cs = none := by
  rw [Ec2.buggyEc2TypeMatch, List.findSome?_eq_none_iff]
  intro i _
  by_cases hi : i = 0
  · rw [if_pos hi]
  · rw [if_neg hi]
    cases hd : cs.drop i with
    | nil => rfl
    | cons sep rest =>
      have hsep : ¬sep = '\\' := by
        intro hEq
        apply h
        rw [← hEq]
        exact List.drop_subset i cs (by rw [hd]; exact List.mem_cons_self _ _)
      cases rest with
      | nil => rfl
      | cons ch g2 =>
        show (if sep = '\\' ∧ (cs.take i).all Ec2.alnumLower ∧ ch ≠ '\n' ∧
            g2 ≠ [] ∧ g2.all notDot then some (cs.take i, g2) else none) = none
        rw [if_neg (fun hco => hsep hco.1)]

/-- When no observed type contains a backslash, `refresh_ec2_sizes` finds no
rows and keeps the previous table. -/
theorem refresh_ec2_sizes_keeps_old {old : List SizeEntry} {types : List String}
    (h : ∀ t ∈ types, '\\' ∉ t.data) :
    Ec2.refresh_ec2_sizes old types = old := by
  have h1 : types.dedup.filterMap (fun t => (Ec2.buggyEc2TypeMatch t.data).map
      (fun g => (String.mk g.1, lowerStr (String.mk g.2)))) = [] := by
    rw [List.filterMap_eq_nil_iff]
    intro t ht
    rw [buggyEc2TypeMatch_eq_none (h t (List.mem_dedup.mp ht))]
    rfl
  rw [Ec2.refresh_ec2_sizes, h1]
  rfl

/-- With an empty `ec2_sizes` table the rightsize view is empty: the size
lookup is an inner condition of the generator. -/
theorem ec2_rightsize_candidates_nil (usage : List Ec2.Ec2Row) :
    Ec2.ec2_rightsize_candidates usage [] = [] := by
  rw [List.eq_nil_iff_forall_not_mem]
  intro r hr
  simp only [Ec2.ec2_rightsize_candidates, mem_sortByB] at hr
  obtain ⟨u, _, hfu⟩ := List.mem_filterMap.mp hr
  cases hic : u.current_instance_type with
  | none => simp [hic] at hfu
  | some ty =>
    cases hcpu : u.avg_cpu_14d with
    | none => simp [hic, hcpu] at hfu
    | some cpu =>
      simp only [hic, hcpu] at hfu
      by_cases hcond : Ec2.isOnDemand u = true ∧ cpu < 30
      · rw [if_pos hcond] at hfu
        cases hf : Ec2.ec2_family ty with
        | none => simp [hf] at hfu
        | some f =>
          cases hsz : Ec2.asSize ty with
          | none => simp [hf, hsz] at hfu
          | some s => simp [hf, hsz] at hfu
      · rw [if_neg hcond] at hfu
        simp at hfu

/-- With an empty ladder the EC2 action union holds only schedule and spot
rows. -/
theorem ec2_no_rightsize_in_all_actions (usage : List Ec2.Ec2Row) (a : Ec2.Ec2ARow)
    (ha : a ∈ Ec2.ec2_ops_all_actions usage []) : ¬a.action = "rightsize" := by
  rw [Ec2.ec2_ops_all_actions, ec2_rightsize_candidates_nil] at ha
  simp only [List.map_nil, List.append_nil] at ha
  rcases List.mem_append.mp ha with h1 | h2
  · obtain ⟨x, _, rfl⟩ := List.mem_map.mp h1
    intro hco
    have hne : ¬("schedule" = "rightsize") := by decide
    exact absurd hco hne
  · obtain ⟨x, _, rfl⟩ := List.mem_map.mp h2
    intro hco
    have hne : ¬("spot" = "rightsize") := by decide
    exact absurd hco hne

/-! ## The claims -/

/-- C9: size-ladder round-trip. On a ladder built from observed classes,
whenever `next_larger` resolves, `next_smaller` of the result gives back the
original class; and for a class present in the ladder, each lookup answers
`none` exactly when the class already has the extremal observed rank of its
family (largest for `next_larger`, smallest for `next_smaller`). -/
theorem c9_size_ladder :
    (∀ (cls : List String) (c c' : String),
      RdsPy.next_larger (RdsPy.refresh_rds_sizes_from_usage cls) c = some c' →
      RdsPy.next_smaller (RdsPy.refresh_rds_sizes_from_usage cls) c' = some c) ∧
    (∀ (cls : List String) (c f s : String) (e : SizeEntry),
      dbClassSplit c = some (f, s) →
      (RdsPy.refresh_rds_sizes_from_usage cls).find?
        (fun en => en.family = f && en.size = s) = some e →
      ((RdsPy.next_larger (RdsPy.refresh_rds_sizes_from_usage cls) c = none ↔
        ∀ e2 ∈ RdsPy.refresh_rds_sizes_from_usage cls, e2.family = f →
          e2.size_rank ≤ e.size_rank) ∧
       (RdsPy.next_smaller (RdsPy.refresh_rds_sizes_from_usage cls) c = none ↔
        ∀ e2 ∈ RdsPy.refresh_rds_sizes_from_usage cls, e2.family = f →
          e.size_rank ≤ e2.size_rank))) :=
  ⟨fun _ _ _ h => RdsPy.round_trip_core h,
   fun _ _ _ _ _ hparse hfind =>
     ⟨RdsPy.next_larger_none_iff hparse hfind, RdsPy.next_smaller_none_iff hparse hfind⟩⟩

/-- C9 at a concrete two-rung ladder: the round trip from `db.r5.large`, and
both boundary answers on `db.r5.xlarge` (top) and `db.r5.large` (bottom). -/
theorem c9_size_ladder_witness :
    (RdsPy.next_smaller c9ladder "db.r5.xlarge" = some "db.r5.large") ∧
    (RdsPy.next_larger c9ladder "db.r5.xlarge" = none ↔
      ∀ e2 ∈ c9ladder, e2.family = "db.r5" → e2.size_rank ≤ 2) ∧
    (RdsPy.next_smaller c9ladder "db.r5.large" = none ↔
      ∀ e2 ∈ c9ladder, e2.family = "db.r5" → 1 ≤ e2.size_rank) :=
  ⟨c9_size_ladder.1 ["db.r5.large", "db.r5.xlarge"] "db.r5.large" "db.r5.xlarge"
      (by with_unfolding_all decide),
   (c9_size_ladder.2 ["db.r5.large", "db.r5.xlarge"] "db.r5.xlarge" "db.r5" "xlarge"
      { family := "db.r5", size := "xlarge", size_rank := 2 }
      (by with_unfolding_all decide) (by with_unfolding_all decide)).1,
   (c9_size_ladder.2 ["db.r5.large", "db.r5.xlarge"] "db.r5.large" "db.r5" "large"
      { family := "db.r5", size := "large", size_rank := 1 }
      (by with_unfolding_all decide) (by with_unfolding_all decide)).2⟩

/-- C10: the EC2 ladder builder matches observed types against the
doubled-backslash pattern, so for any batch whose types carry no literal
backslash the `ec2_sizes` table stays empty, the rightsize view is empty,
and the ranked EC2 action list holds no rightsize row. -/
theorem c10_ec2_regex_bug (usage : List Ec2.Ec2Row)
    (hnb : ∀ t ∈ Ec2.usageTypes usage, '\\' ∉ t.data) :
    Ec2.refresh_ec2_sizes [] (Ec2.usageTypes usage) = [] ∧
    Ec2.ec2_rightsize_candidates usage (Ec2.refresh_ec2_sizes [] (Ec2.usageTypes usage)) = [] ∧
    (Ec2.initialize_ops_ranked usage).countP (fun r => r.action = "rightsize") = 0 := by
  have h0 : Ec2.refresh_ec2_sizes [] (Ec2.usageTypes usage) = [] :=
    refresh_ec2_sizes_keeps_old hnb
  refine ⟨h0, ?_, ?_⟩
  · rw [h0]
    exact ec2_rightsize_candidates_nil usage
  · rw [Ec2.initialize_ops_ranked, h0, Ec2.ec2_ops_actions_ranked, countP_sortByB,
      List.countP_map, List.countP_eq_zero]
    intro a ha
    intro hco
    exact ec2_no_rightsize_in_all_actions usage a (mem_of_mem_dedupBy ha)
      (of_decide_eq_true hco)

/-- C10 at a batch with the ordinary type `m5.large`: the ladder is empty and
no rightsize action is ranked. -/
theorem c10_ec2_regex_bug_witness :
    Ec2.refresh_ec2_sizes [] (Ec2.usageTypes [c10usage]) = [] ∧
    Ec2.ec2_rightsize_candidates [c10usage]
      (Ec2.refresh_ec2_sizes [] (Ec2.usageTypes [c10usage])) = [] ∧
    (Ec2.initialize_ops_ranked [c10usage]).countP (fun r => r.action = "rightsize") = 0 :=
  c10_ec2_regex_bug [c10usage] (by with_unfolding_all decide)

/-- C1 counterexample: in the `rds.py` ranked view (one refresh = one billing
batch) the resource `dev-x` appears three times — kill/merge, downsize and
offhours all fire and no dedup step exists. -/
theorem c1_rds_duplicates :
    (RdsPy.build_rds_actions RdsPy.rds_env_patterns [] c1prices [c1rawA, c1rawB]).countP
      (fun a => a.db_id = some "dev-x") = 3 := by
  with_unfolding_all decide

/-- C1 (amended): the two deduplicating ranked views do keep at most one row
per key — per (billing period, resource) in the agent RDS view, per resource
in the EC2 ops view — while the `rds.py` ranked view has no dedup at all (see
the counterexample). -/
theorem c1_dedup_invariant :
    (∀ (excl : List String) (sizes : List SizeEntry) (prices : List RdsAgent.PriceRowA)
        (usage : List RdsAgent.UsageRow) (k : ℕ × ℕ × Option String),
      (RdsAgent.deduped excl sizes prices usage).countP
        (fun a => RdsAgent.dkey a = k) ≤ 1) ∧
    (∀ (usage : List Ec2.Ec2Row) (sizes : List SizeEntry) (rid : Option String),
      (Ec2.ec2_ops_actions_ranked usage sizes).countP
        (fun r => r.resource_id = rid) ≤ 1) := by
  constructor
  · intro excl sizes prices usage k
    rw [RdsAgent.deduped]
    exact dedupBy_countP_le_one _ k
  · intro usage sizes rid
    rw [Ec2.ec2_ops_actions_ranked]
    exact countP_sort_map_dedup _ _ _ _ _ _ rid (fun a => rfl)

/-- C4 counterexample: the EBS ranked list surfaces a gp2-migration row whose
savings are 2 USD — far below the 25 USD floor; the EBS pipeline has no
economic floor. -/
theorem c4_ebs_below_floor :
    ((Ebs.ebs_actions_ranked [c4row]).countP
      (fun r => r.est_savings_usd = some 2) = 1) ∧ ((2 : ℚ) < 25) := by
  constructor
  · with_unfolding_all decide
  · norm_num

/-- C4 (amended): the floor invariant does hold for the `rds.py` ranked list,
and in the stronger form that a surfaced row's savings are never null: no row
whose savings are null or below 25 survives the `COALESCE(...) >= 25` filter. -/
theorem c4_rds_floor (sizes : List SizeEntry) (prices : List RdsPy.PriceRow)
    (rows : List RdsPy.SizedRow) :
    (RdsPy.rds_actions_ranked sizes prices rows).countP
      (fun a => match a.est_delta_usd with
        | none => true
        | some v => decide (v < 25)) = 0 := by
  rw [List.countP_eq_zero]
  intro a ha
  simp only [RdsPy.rds_actions_ranked, mem_sortByB] at ha
  have hp := (List.mem_filter.mp ha).2
  have h25 : a.est_delta_usd.getD 0 ≥ 25 := of_decide_eq_true hp
  cases hest : a.est_delta_usd with
  | none =>
    rw [hest] at h25
    exact absurd h25 (by norm_num)
  | some v =>
    rw [hest] at h25
    simp only [Option.getD_some] at h25
    simp only [decide_eq_true_eq]
    exact not_lt.mpr h25

/-- C2 counterexample: `dev-a` has a downsize candidate (36 USD, priority 2)
and an offhours candidate (65 USD, priority 1) in the same batch; the ranked
output keeps the DOWNSIZE row, not the offhours row — in this code base
rightsizing outranks scheduling, the opposite of the claimed order. -/
theorem c2_downsize_beats_offhours :
    ((RdsAgent.initialize_ranked [] c2prices [c2usageA, c2usageB]).countP
      (fun r => r.resource_id = some "dev-a" ∧ r.action = "offhours") = 0) ∧
    ((RdsAgent.initialize_ranked [] c2prices [c2usageA, c2usageB]).countP
      (fun r => r.resource_id = some "dev-a" ∧ r.action = "downsize") = 1) := by
  constructor
  · with_unfolding_all decide
  · with_unfolding_all decide

/-- C2 (amended): when candidates compete for the same (billing period,
resource) key, the dedup survivor has the maximal priority of its group under
the code's numeric order kill/merge 3 > downsize 2 > offhours 1 — so a
surviving row never has lower priority than any competing candidate. -/
theorem c2_priority_wins (excl : List String) (sizes : List SizeEntry)
    (prices : List RdsAgent.PriceRowA) (usage : List RdsAgent.UsageRow)
    (r c : RdsAgent.ARow)
    (hr : r ∈ RdsAgent.deduped excl sizes prices usage)
    (hc : c ∈ RdsAgent.filtered excl sizes prices usage)
    (hk : RdsAgent.dkey c = RdsAgent.dkey r) :
    c.priority ≤ r.priority := by
  rw [RdsAgent.deduped] at hr
  have hb := dedupBy_maximal (prioSavBetter_irrefl _ _) (prioSavBetter_trans _ _)
    (prioSavBetter_neg_trans _ _) hr hc hk
  exact prioSavBetter_false_prio_le _ _ _ _ hb

set_option maxRecDepth 3000 in
/-- C2 at the concrete batch: the offhours candidate (priority 1) competes
with the surviving downsize row (priority 2). -/
theorem c2_priority_wins_witness : c2offhoursRow.priority ≤ c2downsizeRow.priority :=
  c2_priority_wins [] ladderXL c2prices [c2usageA] c2downsizeRow c2offhoursRow
    (by with_unfolding_all exact List.Mem.head _)
    (by with_unfolding_all exact List.Mem.tail _ (List.Mem.head _))
    (by with_unfolding_all decide)

/-- C3 counterexample: with a downsize candidate at 3.60 USD (below the
floor) and an offhours candidate at 65 USD for the same resource, the code
(floor BEFORE dedup) surfaces the offhours row, while the claimed order
(dedup before floor) would keep the downsize row and then drop the resource
entirely. The two orders are observably different. -/
theorem c3_order_observable :
    ((RdsAgent.rds_actions_ranked [] ladderXL c3prices [c3usage]).countP
      (fun r => r.resource_id = some "dev-a") = 1) ∧
    ((RdsAgent.rds_actions_ranked [] ladderXL c3prices [c3usage]).countP
      (fun r => r.resource_id = some "dev-a" ∧ r.action = "offhours") = 1) ∧
    ((RdsAgent.claimed_dedup_before_floor [] ladderXL c3prices [c3usage]).countP
      (fun r => r.resource_id = some "dev-a") = 0) := by
  refine ⟨?_, ?_, ?_⟩
  · with_unfolding_all decide
  · with_unfolding_all decide
  · with_unfolding_all decide

/-- C3 (amended): the agent ranker applies the economic floor FIRST and
deduplicates the floored list: every surfaced row passes the floor, and
every floor-passing candidate's (billing period, resource) key survives the
dedup step. -/
theorem c3_floor_then_dedup (excl : List String) (sizes : List SizeEntry)
    (prices : List RdsAgent.PriceRowA) (usage : List RdsAgent.UsageRow) :
    (∀ r ∈ RdsAgent.rds_actions_ranked excl sizes prices usage,
      r.est_monthly_savings_usd.getD 0 ≥ 25) ∧
    (∀ c ∈ RdsAgent.filtered excl sizes prices usage,
      ∃ r ∈ RdsAgent.deduped excl sizes prices usage,
        RdsAgent.dkey r = RdsAgent.dkey c) := by
  constructor
  · intro r hr
    simp only [RdsAgent.rds_actions_ranked, mem_sortByB] at hr
    obtain ⟨a, ha, rfl⟩ := List.mem_map.mp hr
    rw [RdsAgent.deduped] at ha
    have haf := mem_of_mem_dedupBy ha
    rw [RdsAgent.filtered] at haf
    exact of_decide_eq_true (List.mem_filter.mp haf).2
  · intro c hc
    rw [RdsAgent.deduped]
    exact dedupBy_covers hc

set_option maxRecDepth 3000 in
/-- C3 at the concrete batch: the surfaced offhours row passes the floor, and
the offhours candidate's key survives dedup. -/
theorem c3_floor_then_dedup_witness :
    (c3rankedRow.est_monthly_savings_usd.getD 0 ≥ 25) ∧
    (∃ r ∈ RdsAgent.deduped [] ladderXL c3prices [c3usage],
      RdsAgent.dkey r = RdsAgent.dkey c3offARow) :=
  ⟨(c3_floor_then_dedup [] ladderXL c3prices [c3usage]).1 c3rankedRow
      (by with_unfolding_all exact List.Mem.head _),
   (c3_floor_then_dedup [] ladderXL c3prices [c3usage]).2 c3offARow
      (by with_unfolding_all exact List.Mem.head _)⟩

/-- Any row of the agent downsize view carries its own savings formula and
two matching price-table entries (the inner joins). -/
theorem agent_rightsize_row_spec {sizes : List SizeEntry}
    {prices : List RdsAgent.PriceRowA} {usage : List RdsAgent.UsageRow}
    {r : RdsAgent.RsRowA}
    (hr : r ∈ RdsAgent.rds_rightsize_next_smaller sizes prices usage) :
    (r.est_monthly_savings_usd =
      r.hours.map (fun h => round2 (h * (r.current_hourly - r.target_hourly)))) ∧
    ∃ reg, r.region = some reg ∧
      (∃ p ∈ prices, p.instance_class = r.current_class ∧ p.region = reg ∧
        p.hourly_usd = r.current_hourly) ∧
      (∃ p ∈ prices, p.instance_class = r.recommended_class ∧ p.region = reg ∧
        p.hourly_usd = r.target_hourly) := by
  simp only [RdsAgent.rds_rightsize_next_smaller, mem_sortByB] at hr
  obtain ⟨u, _, hfu⟩ := List.mem_filterMap.mp hr
  cases hic : u.instance_class with
  | none => rw [hic] at hfu; simp at hfu
  | some ic =>
    cases hcpu : u.avg_cpu_14d with
    | none => rw [hic, hcpu] at hfu; simp at hfu
    | some cpu =>
      simp only [hic, hcpu] at hfu
      by_cases hlt : cpu < 10
      · rw [if_pos hlt] at hfu
        cases hf : RdsAgent.asFamily ic with
        | none => simp [hf] at hfu
        | some f =>
          cases hsz : RdsAgent.asSize ic with
          | none => simp [hf, hsz] at hfu
          | some s =>
            simp only [hf, hsz] at hfu
            cases hfind : sizes.find? (fun e => e.family = f && e.size = s) with
            | none => simp [hfind] at hfu
            | some e =>
              simp only [hfind] at hfu
              by_cases hrank : 1 < e.size_rank
              · rw [if_pos hrank] at hfu
                cases hfind2 : sizes.find?
                    (fun e2 => e2.family = f && e2.size_rank = e.size_rank - 1) with
                | none => simp [hfind2] at hfu
                | some e2 =>
                  simp only [hfind2] at hfu
                  cases hreg : u.region with
                  | none => simp [hreg] at hfu
                  | some reg =>
                    simp only [hreg] at hfu
                    cases hprc : RdsAgent.priceFind prices ic reg with
                    | none => simp [hprc] at hfu
                    | some prc =>
                      cases hprt : RdsAgent.priceFind prices (f ++ "." ++ e2.size) reg with
                      | none => simp [hprc, hprt] at hfu
                      | some prt =>
                        simp only [hprc, hprt, Option.some.injEq] at hfu
                        subst hfu
                        rw [RdsAgent.priceFind] at hprc hprt
                        have hm1 := List.mem_of_find?_eq_some hprc
                        have hp1 := List.find?_some hprc
                        have hm2 := List.mem_of_find?_eq_some hprt
                        have hp2 := List.find?_some hprt
                        rw [Bool.and_eq_true, decide_eq_true_eq, decide_eq_true_eq]
                          at hp1 hp2
                        exact ⟨rfl, reg, rfl, ⟨prc, hm1, hp1.1, hp1.2, rfl⟩,
                          ⟨prt, hm2, hp2.1, hp2.2, rfl⟩⟩
              · rw [if_neg hrank] at hfu
                simp at hfu
      · rw [if_neg hlt] at hfu
        simp at hfu

set_option maxRecDepth 3000 in
/-- C5 counterexample: on the `rds.py` side the priced downsize view stores
`cost − target_price × hours` (here 100 − 0.10 × 720 = 28), not the claimed
`(current − target) × hours` (which would be 72). -/
theorem c5_savings_formula :
    (c5view.countP (fun r => r.db_id = some "x1" ∧ r.current_price_per_hr = some (1/5) ∧
      r.rec_price_per_hr = some (1/10) ∧ r.hours = 720 ∧
      r.est_monthly_savings_usd = some 28) = 1) ∧
    (c5view.countP (fun r => r.est_monthly_savings_usd = some 72) = 0) ∧
    ((1/5 - 1/10 : ℚ) * 720 = 72) := by
  refine ⟨?_, ?_, ?_⟩
  · with_unfolding_all decide
  · with_unfolding_all decide
  · norm_num

/-- C5 (amended): the two flavors disagree. Every `rds.py` priced downsize
row stores `cost − rec_price × hours` (null when the recommended price is
missing or hours are zero), while every agent downsize row stores
`ROUND(hours × (current − target), 2)` with both prices inner-joined. -/
theorem c5_downsize_savings (prices : List RdsPy.PriceRow) (rs : List RdsPy.RsRow)
    (sizes : List SizeEntry) (pricesA : List RdsAgent.PriceRowA)
    (usage : List RdsAgent.UsageRow) :
    (∀ r ∈ RdsPy.rds_rightsize_next_smaller_priced prices rs,
      r.est_monthly_savings_usd = (match r.rec_price_per_hr with
        | none => none
        | some pnv => if r.hours = 0 then none else some (r.cost_usd - pnv * r.hours))) ∧
    (∀ r ∈ RdsAgent.rds_rightsize_next_smaller sizes pricesA usage,
      r.est_monthly_savings_usd =
        r.hours.map (fun h => round2 (h * (r.current_hourly - r.target_hourly)))) := by
  constructor
  · intro r hr
    simp only [RdsPy.rds_rightsize_next_smaller_priced, mem_sortByB] at hr
    obtain ⟨s, _, rfl⟩ := List.mem_map.mp hr
    rfl
  · intro r hr
    exact (agent_rightsize_row_spec hr).1

set_option maxRecDepth 3000 in
/-- C5 at the concrete agent batch: 720 hours at a 0.10/hr price delta give
savings of exactly 72. -/
theorem c5_downsize_savings_witness :
    (c5agentRow.est_monthly_savings_usd =
      c5agentRow.hours.map (fun h => round2 (h * (c5agentRow.current_hourly -
        c5agentRow.target_hourly)))) ∧
    c5agentRow.est_monthly_savings_usd = some 72 :=
  ⟨(c5_downsize_savings [] [] ladderXL c5pricesA [c5agentUsage]).2 c5agentRow
      (by with_unfolding_all exact List.Mem.head _),
   by with_unfolding_all decide⟩

/-- C6 counterexample: the agent offhours view emits a candidate for a
nonprod database running only 100 of July's 744 hours (100 is far below 98%
of 744 = 729.12); the full-month test only sets the `approx_247` flag. -/
theorem c6_no_full_month_gate :
    ((RdsAgent.rds_offhours_candidates [c6lowUsage]).countP
      (fun r => r.db_id = some "dev-x" ∧ r.current_hours = 100 ∧ r.approx_247 = 0) = 1) ∧
    ((100 : ℚ) < 0.98 * (31 * 24)) := by
  constructor
  · with_unfolding_all decide
  · norm_num

/-- C6 (amended): the agent view emits a candidate for EVERY nonprod-named
row with non-null hours; the 98-percent test only drives the `approx_247`
flag; savings are `ROUND(cost × 0.65, 2)`. The `rds.py` flavor uses a fixed
`hours ≥ 672` gate instead of the days-in-month test. -/
theorem c6_offhours_semantics (usage : List RdsAgent.UsageRow)
    (rows : List RdsPy.SizedRow) :
    (∀ r ∈ RdsAgent.rds_offhours_candidates usage,
      r.est_monthly_savings_usd = r.current_cost_usd.map (fun c => round2 (c * 0.65)) ∧
      (r.approx_247 = 1 ↔
        r.current_hours ≥ 0.98 * ((daysInMonth r.billing_year r.billing_month : ℚ) * 24))) ∧
    (∀ u ∈ usage, RdsAgent.nonprodName u = true → ∀ h, u.hours = some h →
      ∃ r ∈ RdsAgent.rds_offhours_candidates usage,
        r.db_id = u.db_id ∧ r.current_hours = h) ∧
    (∀ r ∈ RdsPy.rds_offhours_candidates rows,
      r.env_guess = "nonprod" ∧ r.current_hours ≥ 672 ∧
      r.est_monthly_savings_usd = round2 (r.current_cost_usd * 0.65)) := by
  refine ⟨?_, ?_, ?_⟩
  · intro r hr
    simp only [RdsAgent.rds_offhours_candidates, mem_sortByB] at hr
    obtain ⟨u, _, hfu⟩ := List.mem_filterMap.mp hr
    by_cases hnp : RdsAgent.nonprodName u = true
    · rw [if_pos hnp] at hfu
      cases hh : u.hours with
      | none => simp [hh] at hfu
      | some h =>
        simp only [hh, Option.some.injEq] at hfu
        subst hfu
        refine ⟨rfl, ?_⟩
        simp only [RdsAgent.approx_247, hh]
        by_cases hge : h ≥ 0.98 * ((daysInMonth u.billing_year u.billing_month : ℚ) * 24)
        · simp [hge]
        · simp [hge]
    · rw [if_neg hnp] at hfu
      simp at hfu
  · intro u hu hnp h hh
    refine ⟨{ billing_year := u.billing_year, billing_month := u.billing_month,
              account_id := u.account_id, account_name := u.account_name,
              BA := u.BA, db_id := u.db_id, region := u.region,
              instance_class := u.instance_class,
              current_hours := h, current_cost_usd := u.cost_usd,
              approx_247 := RdsAgent.approx_247 u,
              est_monthly_savings_usd := u.cost_usd.map (fun c => round2 (c * 0.65)),
              assumption := "Assume 5x12 schedule (~65% savings)",
              avg_cpu_14d := u.avg_cpu_14d }, ?_, rfl, rfl⟩
    simp only [RdsAgent.rds_offhours_candidates, mem_sortByB]
    refine List.mem_filterMap.mpr ⟨u, hu, ?_⟩
    rw [if_pos hnp, hh]
  · intro r hr
    simp only [RdsPy.rds_offhours_candidates, mem_sortByB] at hr
    obtain ⟨x, _, hfx⟩ := List.mem_filterMap.mp hr
    by_cases hcond : x.env_guess = "nonprod" ∧ x.hours ≥ 672
    · rw [if_pos hcond, Option.some.injEq] at hfx
      subst hfx
      exact ⟨hcond.1, hcond.2, rfl⟩
    · rw [if_neg hcond] at hfx
      simp at hfx

/-- C6 at the spec scenario: `dev-web-01` at 720 of April's 720 hours and
100 USD yields an offhours candidate with savings 65 and the 24x7 flag set. -/
theorem c6_offhours_semantics_witness :
    (∃ r ∈ RdsAgent.rds_offhours_candidates [c6webUsage],
      r.db_id = some "dev-web-01" ∧ r.current_hours = 720) ∧
    ((RdsAgent.rds_offhours_candidates [c6webUsage]).countP
      (fun r => r.est_monthly_savings_usd = some 65 ∧ r.approx_247 = 1) = 1) :=
  ⟨(c6_offhours_semantics [c6webUsage] []).2.1 c6webUsage (List.Mem.head _)
      (by with_unfolding_all decide) 720 rfl,
   by with_unfolding_all decide⟩

/-- C7 counterexample: a volume detached for only 5 days still yields a
delete_idle row (confidence Low); there is no 30-day gate on emission. -/
theorem c7_short_idle_emitted :
    ((Ebs.ebs_actions_union [c7idleShort]).countP
      (fun r => r.action = "delete_idle" ∧ r.volume_id = some "vol-s" ∧
        r.confidence = "Low" ∧ r.est_savings_usd = some 50) = 1) ∧ ((5 : ℚ) < 30) := by
  constructor
  · with_unfolding_all decide
  · norm_num

/-- C7 (amended): delete_idle fires for EVERY detached volume; the idle-day
thresholds only grade the confidence (High at 90+, Medium at 30+, else Low,
unknown idle counting as Low), and the savings equal the full monthly cost. -/
theorem c7_delete_idle_semantics (rows : List Ebs.EbsRow) :
    (∀ r ∈ Ebs.ebs_unattached_long_idle rows,
      r.attach_state = "Detached" ∧ r.suggested_action = "delete_idle" ∧
      r.confidence = (match r.days_since_last_attached with
        | none => "Low"
        | some d => if d ≥ Ebs.very_long_idle_days then "High"
            else if d ≥ Ebs.long_idle_days then "Medium" else "Low")) ∧
    (∀ n ∈ Ebs.ebs_norm rows, n.attach_state = "Detached" →
      ∃ r ∈ Ebs.ebs_actions_union rows, r.action = "delete_idle" ∧
        r.volume_id = n.volume_id ∧ r.est_savings_usd = n.monthly_cost_usd ∧
        r.confidence = (match n.days_since_last_attached with
          | none => "Low"
          | some d => if d ≥ Ebs.very_long_idle_days then "High"
              else if d ≥ Ebs.long_idle_days then "Medium" else "Low")) := by
  constructor
  · intro r hr
    simp only [Ebs.ebs_unattached_long_idle, mem_sortByB] at hr
    obtain ⟨u, hu, rfl⟩ := List.mem_map.mp hr
    refine ⟨?_, rfl, rfl⟩
    simp only [Ebs.ebs_unattached, mem_sortByB] at hu
    exact of_decide_eq_true (List.mem_filter.mp hu).2
  · intro n hn hdet
    have hnu : n ∈ Ebs.ebs_unattached rows := by
      simp only [Ebs.ebs_unattached, mem_sortByB]
      refine List.mem_filter.mpr ⟨hn, ?_⟩
      simp [hdet]
    have hli : ({ toNormRow := n,
                  confidence := match n.days_since_last_attached with
                    | none => "Low"
                    | some d => if d ≥ Ebs.very_long_idle_days then "High"
                        else if d ≥ Ebs.long_idle_days then "Medium" else "Low",
                  suggested_action := "delete_idle" } : Ebs.LongIdleRow) ∈
        Ebs.ebs_unattached_long_idle rows := by
      simp only [Ebs.ebs_unattached_long_idle, mem_sortByB]
      exact List.mem_map.mpr ⟨n, hnu, rfl⟩
    refine ⟨{ billing_period := n.billing_period,
              business_area := n.business_area,
              region := n.region, volume_id := n.volume_id,
              action := "delete_idle",
              est_savings_usd := n.monthly_cost_usd,
              confidence := match n.days_since_last_attached with
                | none => "Low"
                | some d => if d ≥ Ebs.very_long_idle_days then "High"
                    else if d ≥ Ebs.long_idle_days then "Medium" else "Low",
              reason := "Long idle & detached" }, ?_, rfl, rfl, rfl, rfl⟩
    rw [Ebs.ebs_actions_union]
    exact List.mem_append_left _ (List.mem_append_left _ (List.mem_append_left _
      (List.mem_map.mpr ⟨_, hli, rfl⟩)))

set_option maxRecDepth 3000 in
/-- C7 at the spec scenario: 95 idle days at 50 USD/month give a delete_idle
row with confidence High and savings 50. -/
theorem c7_delete_idle_semantics_witness :
    ∃ r ∈ Ebs.ebs_actions_union [c7idleLong], r.action = "delete_idle" ∧
      r.volume_id = some "vol-95" ∧ r.est_savings_usd = some 50 ∧
      r.confidence = "High" := by
  obtain ⟨r, hr, h1, h2, h3, h4⟩ :=
    (c7_delete_idle_semantics [c7idleLong]).2 c7norm95
      (by with_unfolding_all exact List.Mem.head _) (by with_unfolding_all decide)
  refine ⟨r, hr, h1, ?_, ?_, ?_⟩
  · rw [h2]
    rfl
  · rw [h3]
    rfl
  · rw [h4]
    with_unfolding_all decide

/-- C8 counterexample: with an empty price table the `rds.py` priced downsize
view still emits the candidate — with null prices and null savings — rather
than suppressing it (the joins are LEFT JOINs). -/
theorem c8_null_savings_emitted :
    c8view.countP (fun r => r.db_id = some "x1" ∧ r.current_price_per_hr = none ∧
      r.rec_price_per_hr = none ∧ r.est_monthly_savings_usd = none) = 1 := by
  with_unfolding_all decide

/-- C8 (amended): the suppression behaviour belongs to the agent flavor only:
every row of the agent downsize view resolves BOTH prices against the price
table (inner joins), so an unpriced candidate yields no row there. -/
theorem c8_agent_price_join (sizes : List SizeEntry) (prices : List RdsAgent.PriceRowA)
    (usage : List RdsAgent.UsageRow) :
    ∀ r ∈ RdsAgent.rds_rightsize_next_smaller sizes prices usage,
      ∃ reg, r.region = some reg ∧
        (∃ p ∈ prices, p.instance_class = r.current_class ∧ p.region = reg ∧
          p.hourly_usd = r.current_hourly) ∧
        (∃ p ∈ prices, p.instance_class = r.recommended_class ∧ p.region = reg ∧
          p.hourly_usd = r.target_hourly) :=
  fun _ hr => (agent_rightsize_row_spec hr).2

set_option maxRecDepth 3000 in
/-- C8 at the concrete agent batch: the emitted row's two prices come from
the price table. -/
theorem c8_agent_price_join_witness :
    ∃ reg, c5agentRow.region = some reg ∧
      (∃ p ∈ c5pricesA, p.instance_class = c5agentRow.current_class ∧ p.region = reg ∧
        p.hourly_usd = c5agentRow.current_hourly) ∧
      (∃ p ∈ c5pricesA, p.instance_class = c5agentRow.recommended_class ∧ p.region = reg ∧
        p.hourly_usd = c5agentRow.target_hourly) :=
  c8_agent_price_join ladderXL c5pricesA [c5agentUsage] c5agentRow
    (by with_unfolding_all exact List.Mem.head _)
